import Mathlib

/-! # cpp11::variant and cpp11::any

A shallow embedding of `cpp11/variant.hpp` and `cpp11/any.hpp`.

* A C++ type is an element of `τ` (decayed: `typeid`, `std::is_same` after `std::decay`, and
  `remove_cv<remove_reference<T>>` all compare such identities); the value of an object is an
  element of `ν`.
* Objects live at addresses.  A `World` maps every address to the bytes of a `variant` object and
  carries the trace of the constructor / destructor calls that ran.  Member functions take the
  address of `*this` and the world and return the new world.
* `Option.none` as a result means that no behaviour is defined: the instantiation is ill-formed
  (no `variant_index<T, ...>::value`), or an array is indexed out of its bounds.
* The storage of a variant is raw memory.  The field `alive` records which object, if any, has its
  lifetime running there.  A destructor thunk that runs on storage where no such object is alive, and
  a read of an object whose lifetime has ended, are recorded in the trace with `live = false`.
  Unless the type is trivially destructible (its destructor runs no code, as for `int`), the
  behaviour of the program is undefined from there on: the world is marked `undefined`.  What a
  world marked `undefined` shows is the trace of the calls the code makes, not a result that
  the program is bound to produce.
-/

namespace cpp11

/-- Address of an object. -/
abbrev Addr := Nat

/-- The exception `std::runtime_error`, the only exception class thrown by the two headers;
it is identified by its message. -/
structure runtime_error where
  what : String
deriving DecidableEq, Repr

/-- Calls observed while the program runs: a constructor of `T` that starts the lifetime of an
object (`construct`), a destructor call `~T()` and whether a `T` was alive at the place it ran on
(`destruct`), a read of a `T` through a reference into a variant's storage and whether a `T` was
alive there (`read`), a call of a visitor that records the type it is called with (`call`). -/
inductive Event (τ : Type) where
  | construct (T : τ)
  | destruct (T : τ) (live : Bool)
  | read (T : τ) (live : Bool)
  | call (T : τ)
deriving DecidableEq, Repr

namespace detail

/-- The struct `detail::variant_storage`: the byte array `x`, read as the value of the object it
represents, and the type of the object whose lifetime is running in it (`none`: raw memory). -/
structure variant_storage (τ ν : Type) where
  x : ν
  alive : Option τ

/-- The member `variant_storage::assign`: placement-new of a `T` constructed from `v` in `x`. -/
def variant_storage.assign {τ ν : Type} (T : τ) (v : ν) (_s : variant_storage τ ν) :
    variant_storage τ ν :=
  { x := v, alive := some T }

/-- The template `detail::variant_index_impl<N, T, variant<First, Types...>>`: the member `value`
of the selected specialisation, `none` where the specialisation has no member `value`. -/
def variant_index_impl {τ : Type} [DecidableEq τ] (N : Nat) (T : τ) : τ → List τ → Option Nat
  | First, [] => if First = T then some (N - 0) else none
  | First, Second :: Types =>
    if First = T then some (N - (Second :: Types).length)
    else variant_index_impl N T Second Types

/-- The template `detail::variant_index<T, variant<First, Types...>>`. -/
def variant_index {τ : Type} [DecidableEq τ] (T : τ) (First : τ) (Types : List τ) : Option Nat :=
  variant_index_impl Types.length T First Types

/-- The template `detail::variant_max_size_type_impl<T, First, Types...>`: its member `type`;
`sizeof T` is the size of an object of type `T`. -/
def variant_max_size_type_impl {τ : Type} (sizeof : τ → Nat) : τ → τ → List τ → τ
  | T, First, [] => if sizeof T > sizeof First then T else First
  | T, First, Second :: Types =>
    variant_max_size_type_impl sizeof (if sizeof T > sizeof First then T else First) Second Types

/-- The template `detail::variant_max_size_type<First, Types...>`: `First` is passed twice. -/
def variant_max_size_type {τ : Type} (sizeof : τ → Nat) (First : τ) (Types : List τ) : τ :=
  variant_max_size_type_impl sizeof First First Types

/-- The number of elements of the member `x` of `variant_storage<Types...>`, declared
`unsigned char x[sizeof(max_sizeof_type)]`. -/
def variant_storage.extent {τ : Type} (sizeof : τ → Nat) (First : τ) (Types : List τ) : Nat :=
  sizeof (variant_max_size_type sizeof First Types)

end detail

/-- The data members of `cpp11::variant<First, Types...>`. -/
structure variant (τ ν : Type) where
  storage_m : detail.variant_storage τ ν
  index_m : Nat

/-- The state of the program: the variant object found at each address, the trace, whether the
behaviour of the program has become undefined, and which types are trivially destructible (a
destructor call `~T()` of such a type runs no code, whatever the storage holds). -/
structure World (τ ν : Type) where
  mem : Addr → variant τ ν
  log : List (Event τ)
  undefined : Bool
  trivially_destructible : τ → Bool

/-- A reference to an object of an alternative type: to an object outside every variant (a
caller's object or a temporary, given by its value), or to the object in the storage of the variant
at address `p`. -/
inductive Ref (ν : Type) where
  | obj (x : ν)
  | slot (p : Addr)

section variant_model

variable {τ ν : Type} [DecidableEq τ]

/-- Store `v` as the variant object at address `a`. -/
def World.set (w : World τ ν) (a : Addr) (v : variant τ ν) : World τ ν :=
  { w with mem := fun b => if b = a then v else w.mem b }

/-- Append events to the trace. -/
def World.emit (w : World τ ν) (es : List (Event τ)) : World τ ν :=
  { w with log := w.log ++ es }

/-- The behaviour of the program becomes undefined when `c` holds, and stays undefined once it
is. -/
def World.mark (c : Bool) (w : World τ ν) : World τ ν :=
  { w with undefined := w.undefined || c }

/-- The value found through a reference. -/
def World.deref (r : Ref ν) (w : World τ ν) : ν :=
  match r with
  | Ref.obj x => x
  | Ref.slot p => (w.mem p).storage_m.x

/-- Reading a `T` through a reference (the argument of a copy or move constructor): a read from a
variant's storage is recorded together with whether a `T` is alive there.  Reading an object
whose lifetime is not running is undefined behaviour, unless `T` is trivially destructible. -/
def World.read (T : τ) (r : Ref ν) (w : World τ ν) : World τ ν :=
  match r with
  | Ref.obj _ => w
  | Ref.slot p =>
    (w.emit [Event.read T (decide ((w.mem p).storage_m.alive = some T))]).mark
      (!decide ((w.mem p).storage_m.alive = some T) && !w.trivially_destructible T)

/-- What a move constructor of `T` does to its source: `mv T x` is the moved-from value. -/
def World.move_from (mv : τ → ν → ν) (T : τ) (r : Ref ν) (w : World τ ν) : World τ ν :=
  match r with
  | Ref.obj _ => w
  | Ref.slot p =>
    w.set p { w.mem p with
      storage_m := { (w.mem p).storage_m with x := mv T (w.mem p).storage_m.x } }

/-- The member `variant::index`. -/
def variant.index (a : Addr) (w : World τ ν) : Nat :=
  (w.mem a).index_m

/-- The member `variant::get`: the pointer to the storage of the variant at `a`. -/
def variant.get (a : Addr) : Addr :=
  a

/-- One entry of the table `fs` of `variant::destroy`: the lambda that runs `~T()` on the storage
`p` points to.  The lifetime of whatever was there ends.  When no `T` is alive there, the
destructor runs on bytes that are not a `T`: undefined behaviour, unless `T` is trivially
destructible. -/
def variant.destroy_thunk (T : τ) (p : Addr) (w : World τ ν) : World τ ν :=
  ((w.set p { w.mem p with storage_m := { (w.mem p).storage_m with alive := none } }).emit
    [Event.destruct T (decide ((w.mem p).storage_m.alive = some T))]).mark
      (!decide ((w.mem p).storage_m.alive = some T) && !w.trivially_destructible T)

/-- The member `variant::destroy`: `fs[this->index()](this->storage_m.x)`. -/
def variant.destroy (First : τ) (Types : List τ) (a : Addr) (w : World τ ν) :
    Option (World τ ν) :=
  match ((First :: Types).map variant.destroy_thunk)[variant.index a w]? with
  | none => none
  | some f => some (f a w)

/-- The templated `variant::operator=(T&& v)` at the decayed type `T`; `is_rvalue` tells whether
`v` is forwarded as an rvalue (the new object is move-constructed) or as an lvalue (copy). -/
def variant.assign (mv : τ → ν → ν) (First : τ) (Types : List τ) (T : τ) (is_rvalue : Bool)
    (v : Ref ν) (a : Addr) (w : World τ ν) : Option (World τ ν) :=
  match detail.variant_index T First Types with
  | none => none
  | some i =>
    match variant.destroy First Types a w with
    | none => none
    | some w1 =>
      let x := w1.deref v
      let w2 := w1.read T v
      let w3 := (w2.set a { w2.mem a with
        storage_m := detail.variant_storage.assign T x (w2.mem a).storage_m }).emit
          [Event.construct T]
      let w4 := if is_rvalue then w3.move_from mv T v else w3
      some (w4.set a { w4.mem a with index_m := i })

/-- The free function `holds_alternative<T>`. -/
def holds_alternative (First : τ) (Types : List τ) (T : τ) (a : Addr) (w : World τ ν) :
    Option Bool :=
  match detail.variant_index T First Types with
  | none => none
  | some i => some (decide (i = variant.index a w))

/-- The message of the exception thrown by `get`. -/
def bad_variant_access : runtime_error :=
  { what := "Bad variant access" }

/-- The free function `get<T>(variant&)`: the exception, or the reference `*static_cast<T*>(v.get())`;
the world is passed through. -/
def get (First : τ) (Types : List τ) (T : τ) (a : Addr) (w : World τ ν) :
    Option (Except runtime_error (Ref ν) × World τ ν) :=
  match detail.variant_index T First Types with
  | none => none
  | some i =>
    if variant.index a w ≠ i then some (Except.error bad_variant_access, w)
    else some (Except.ok (Ref.slot (variant.get a)), w)

/-- A callable `F` as `visit` uses it: called with a reference to a `T`, it acts on the world and
returns a `ρ`. -/
abbrev Visitor (τ ν ρ : Type) := τ → Ref ν → World τ ν → Option (ρ × World τ ν)

/-- The function `detail::variant_call_visitor<F, R, T1>`: the thunk that casts the pointer to
`T1*` and calls the visitor with the object it points to. -/
def detail.variant_call_visitor {ρ : Type} (T1 : τ) :
    Visitor τ ν ρ → Addr → World τ ν → Option (ρ × World τ ν) :=
  fun f p => f T1 (Ref.slot p)

/-- The free function `visit` (both overloads build the same table over the alternatives):
`fs[v.index()](std::forward<Visitor>(vis), v.get())`. -/
def visit {ρ : Type} (First : τ) (Types : List τ) (vis : Visitor τ ν ρ) (a : Addr)
    (w : World τ ν) : Option (ρ × World τ ν) :=
  match ((First :: Types).map detail.variant_call_visitor)[variant.index a w]? with
  | none => none
  | some thunk => thunk vis (variant.get a) w

/-- The struct `variant::copy_visitor` built on the variant at `a`: `this->v = x` with `x` a
`const T&`. -/
def variant.copy_visitor (mv : τ → ν → ν) (First : τ) (Types : List τ) (a : Addr) :
    Visitor τ ν Unit :=
  fun T x w => (variant.assign mv First Types T false x a w).map (fun w1 => ((), w1))

/-- The struct `variant::move_visitor` built on the variant at `a`: `this->v = std::move(x)`. -/
def variant.move_visitor (mv : τ → ν → ν) (First : τ) (Types : List τ) (a : Addr) :
    Visitor τ ν Unit :=
  fun T x w => (variant.assign mv First Types T true x a w).map (fun w1 => ((), w1))

/-- The copy assignment `variant::operator=(const variant& v)`, `v` the variant at `b`. -/
def variant.copy_assign (mv : τ → ν → ν) (First : τ) (Types : List τ) (a b : Addr)
    (w : World τ ν) : Option (World τ ν) :=
  (visit First Types (variant.copy_visitor mv First Types a) b w).map Prod.snd

/-- The move assignment `variant::operator=(variant&& v)`, `v` the variant at `b`. -/
def variant.move_assign (mv : τ → ν → ν) (First : τ) (Types : List τ) (a b : Addr)
    (w : World τ ν) : Option (World τ ν) :=
  (visit First Types (variant.move_visitor mv First Types a) b w).map Prod.snd

/-- What precedes every constructor body: `index_m` gets its default member initialiser `0`,
`storage_m` is left uninitialised (the bytes found at the address, no object alive). -/
def variant.member_init (a : Addr) (w : World τ ν) : World τ ν :=
  w.set a { storage_m := { x := (w.mem a).storage_m.x, alive := none }, index_m := 0 }

/-- The default constructor `variant() { *this = First(); }`; `dflt First` is the value of the
temporary `First()`, which is destroyed when the assignment has returned. -/
def variant.ctor_default (mv : τ → ν → ν) (dflt : τ → ν) (First : τ) (Types : List τ) (a : Addr)
    (w : World τ ν) : Option (World τ ν) :=
  match variant.assign mv First Types First true (Ref.obj (dflt First)) a
      ((variant.member_init a w).emit [Event.construct First]) with
  | none => none
  | some w1 => some (w1.emit [Event.destruct First true])

/-- The converting constructor `variant(T&& v) { *this = std::forward<T>(v); }`. -/
def variant.ctor_value (mv : τ → ν → ν) (First : τ) (Types : List τ) (T : τ) (is_rvalue : Bool)
    (v : Ref ν) (a : Addr) (w : World τ ν) : Option (World τ ν) :=
  variant.assign mv First Types T is_rvalue v a (variant.member_init a w)

/-- The copy constructor `variant(const variant& v) { *this = v; }`. -/
def variant.ctor_copy (mv : τ → ν → ν) (First : τ) (Types : List τ) (a b : Addr)
    (w : World τ ν) : Option (World τ ν) :=
  variant.copy_assign mv First Types a b (variant.member_init a w)

/-- The move constructor `variant(variant&& v) { *this = std::move(v); }`. -/
def variant.ctor_move (mv : τ → ν → ν) (First : τ) (Types : List τ) (a b : Addr)
    (w : World τ ν) : Option (World τ ν) :=
  variant.move_assign mv First Types a b (variant.member_init a w)

/-- The destructor `~variant() { this->destroy(); }`. -/
def variant.dtor (First : τ) (Types : List τ) (a : Addr) (w : World τ ν) : Option (World τ ν) :=
  variant.destroy First Types a w

/-- Writing a value through a reference. -/
def World.write (r : Ref ν) (y : ν) (w : World τ ν) : World τ ν :=
  match r with
  | Ref.obj _ => w
  | Ref.slot p => w.set p { w.mem p with storage_m := { (w.mem p).storage_m with x := y } }

/-- A visitor that reassigns nothing: called with a `T&` it reads the object, returns
`(f T x).1` and leaves `(f T x).2` in the object. -/
def value_visitor {ρ : Type} (f : τ → ν → ρ × ν) : Visitor τ ν ρ :=
  fun T r w => some ((f T (w.deref r)).1, (w.read T r).write r (f T (w.deref r)).2)

/-- A visitor that only records the type it is called with. -/
def probe_visitor : Visitor τ ν Unit :=
  fun T _ w => some ((), w.emit [Event.call T])

/-- The client statement `get<T>(v) = y`: the write happens when `get` returns; when it throws,
the exception is caught and nothing else is done. -/
def put (First : τ) (Types : List τ) (T : τ) (y : ν) (a : Addr) (w : World τ ν) :
    Option (World τ ν) :=
  match get First Types T a w with
  | none => none
  | some (Except.ok r, w1) => some (w1.write r y)
  | some (Except.error _, w1) => some w1

/-- The public operations on the variants of a program. -/
inductive Op (τ ν : Type) where
  | ctor_default (a : Addr)
  | ctor_value (a : Addr) (T : τ) (is_rvalue : Bool) (v : Ref ν)
  | ctor_copy (a b : Addr)
  | ctor_move (a b : Addr)
  | assign (a : Addr) (T : τ) (is_rvalue : Bool) (v : Ref ν)
  | copy_assign (a b : Addr)
  | move_assign (a b : Addr)
  | visit (a : Addr) (f : τ → ν → ν)
  | put (a : Addr) (T : τ) (y : ν)
  | get (a : Addr) (T : τ)
  | dtor (a : Addr)

/-- Run one public operation. -/
def Op.run (mv : τ → ν → ν) (dflt : τ → ν) (First : τ) (Types : List τ) :
    Op τ ν → World τ ν → Option (World τ ν)
  | Op.ctor_default a, w => variant.ctor_default mv dflt First Types a w
  | Op.ctor_value a T rv v, w => variant.ctor_value mv First Types T rv v a w
  | Op.ctor_copy a b, w => variant.ctor_copy mv First Types a b w
  | Op.ctor_move a b, w => variant.ctor_move mv First Types a b w
  | Op.assign a T rv v, w => variant.assign mv First Types T rv v a w
  | Op.copy_assign a b, w => variant.copy_assign mv First Types a b w
  | Op.move_assign a b, w => variant.move_assign mv First Types a b w
  | Op.visit a f, w =>
    (cpp11.visit First Types (value_visitor (fun T x => ((), f T x))) a w).map Prod.snd
  | Op.put a T y, w => cpp11.put First Types T y a w
  | Op.get a T, w => (cpp11.get First Types T a w).map Prod.snd
  | Op.dtor a, w => variant.dtor First Types a w

/-- Run a sequence of public operations, first to last. -/
def run_ops (mv : τ → ν → ν) (dflt : τ → ν) (First : τ) (Types : List τ) :
    List (Op τ ν) → World τ ν → Option (World τ ν)
  | [], w => some w
  | op :: ops, w =>
    match Op.run mv dflt First Types op w with
    | none => none
    | some w1 => run_ops mv dflt First Types ops w1

/-- Memory in which no variant has been constructed yet. -/
def World.is_raw (w : World τ ν) : Prop :=
  ∀ a, (w.mem a).storage_m.alive = none

/-- A world is reachable when a sequence of public operations leads to it from raw memory. -/
def Reachable (mv : τ → ν → ν) (dflt : τ → ν) (First : τ) (Types : List τ) (w : World τ ν) :
    Prop :=
  ∃ w0 ops, World.is_raw w0 ∧ run_ops mv dflt First Types ops w0 = some w

/-- The state invariant of one variant object: when an object is alive in the storage, the index
is within the alternatives, the live object has the type of the alternative at the index, and the
index is the one computed for that type. -/
def variant.Inv (First : τ) (Types : List τ) (v : variant τ ν) : Prop :=
  ∀ T, v.storage_m.alive = some T →
    (First :: Types)[v.index_m]? = some T ∧ detail.variant_index T First Types = some v.index_m

/-- The state invariant holds for the variant at every address. -/
def World.Inv (First : τ) (Types : List τ) (w : World τ ν) : Prop :=
  ∀ a, variant.Inv First Types (w.mem a)

/-- The value, relative to the start of the trace, of a counter that every constructor of `C`
increments and the destructor of `C` decrements. -/
def counter (C : τ) : List (Event τ) → Int
  | [] => 0
  | Event.construct T :: es => (if T = C then 1 else 0) + counter C es
  | Event.destruct T _ :: es => (if T = C then -1 else 0) + counter C es
  | Event.read _ _ :: es => counter C es
  | Event.call _ :: es => counter C es

end variant_model

/-! ## cpp11::any

An `any` owns its box through a `std::unique_ptr<holder_base>`: the pointer is null, or it owns
one heap object, a `holder_base` itself or a `holder<T>`.  The owned object is kept inside the
pointer (`Option`); allocations and deallocations are recorded in the trace.
-/

/-- The dynamic type and contents of a heap object reached through a `holder_base*`: the class
`any::holder_base` itself (`base`), or the class template `any::holder<T>` with its member
`value`. -/
inductive any.holder_base (τ ν : Type) where
  | base
  | holder (T : τ) (value : ν)

/-- The data member of `cpp11::any`: `std::unique_ptr<holder_base> data_m`. -/
structure any (τ ν : Type) where
  data_m : Option (any.holder_base τ ν)

/-- Heap traffic: `new` and `delete` of a box. -/
inductive BoxEvent (τ ν : Type) where
  | alloc (box : any.holder_base τ ν)
  | free (box : any.holder_base τ ν)

/-- The state of a program that uses `any`: the holder found at each address, and the trace. -/
structure AnyWorld (τ ν : Type) where
  mem : Addr → any τ ν
  log : List (BoxEvent τ ν)

section any_model

variable {τ ν : Type} [DecidableEq τ]

/-- The virtual function `type`: `holder_base::type` returns `typeid(nullptr)`, the type
information of `std::nullptr_t`; `holder<T>::type` returns `typeid(T)`. -/
def any.holder_base.type (nullptr_t : τ) : any.holder_base τ ν → τ
  | any.holder_base.base => nullptr_t
  | any.holder_base.holder T _ => T

/-- The virtual function `clone`: `holder_base::clone` returns a null pointer;
`holder<T>::clone` returns `new holder<T>(value)`. -/
def any.holder_base.clone : any.holder_base τ ν → Option (any.holder_base τ ν)
  | any.holder_base.base => none
  | any.holder_base.holder T value => some (any.holder_base.holder T value)

/-- Store `v` as the holder at address `a`. -/
def AnyWorld.set (w : AnyWorld τ ν) (a : Addr) (v : any τ ν) : AnyWorld τ ν :=
  { w with mem := fun b => if b = a then v else w.mem b }

/-- Append events to the trace. -/
def AnyWorld.emit (w : AnyWorld τ ν) (es : List (BoxEvent τ ν)) : AnyWorld τ ν :=
  { w with log := w.log ++ es }

/-- A `new` expression: the pointer to the new box. -/
def AnyWorld.alloc (box : any.holder_base τ ν) (w : AnyWorld τ ν) :
    Option (any.holder_base τ ν) × AnyWorld τ ν :=
  (some box, w.emit [BoxEvent.alloc box])

/-- Move assignment of `std::unique_ptr` to `data_m` of the holder at `a` from a pointer that
has been released: `data_m` takes the pointer `p`, then the box `data_m` owned before is
deleted. -/
def any.reset (p : Option (any.holder_base τ ν)) (a : Addr) (w : AnyWorld τ ν) : AnyWorld τ ν :=
  match (w.mem a).data_m with
  | none => w.set a { data_m := p }
  | some old => (w.set a { data_m := p }).emit [BoxEvent.free old]

/-- The constructor `any() : data_m(new holder_base())`. -/
def any.ctor_default (a : Addr) (w : AnyWorld τ ν) : AnyWorld τ ν :=
  (AnyWorld.alloc any.holder_base.base w).2.set a
    { data_m := (AnyWorld.alloc any.holder_base.base w).1 }

/-- The constructors `any(const T& v)` and `any(T&& v)`: `data_m(new holder<T>(v))`, with `T`
the type of `v` without reference and cv-qualifiers. -/
def any.ctor_value (T : τ) (v : ν) (a : Addr) (w : AnyWorld τ ν) : AnyWorld τ ν :=
  (AnyWorld.alloc (any.holder_base.holder T v) w).2.set a
    { data_m := (AnyWorld.alloc (any.holder_base.holder T v) w).1 }

/-- The member `any::has_value`: `return this->data_m.get();`. -/
def any.has_value (a : Addr) (w : AnyWorld τ ν) : Bool :=
  (w.mem a).data_m.isSome

/-- The member `any::type`: `return this->data_m->type();`; there is no result when `data_m` is
null. -/
def any.type (nullptr_t : τ) (a : Addr) (w : AnyWorld τ ν) : Option τ :=
  match (w.mem a).data_m with
  | none => none
  | some box => some (box.type nullptr_t)

/-- The templated `any::operator=(T&& v)`: `data_m` is move-assigned a pointer to
`new holder<T>(std::forward<T>(v))`. -/
def any.assign (T : τ) (v : ν) (a : Addr) (w : AnyWorld τ ν) : AnyWorld τ ν :=
  any.reset (AnyWorld.alloc (any.holder_base.holder T v) w).1 a
    (AnyWorld.alloc (any.holder_base.holder T v) w).2

/-- The copy assignment `any::operator=(const any& v)`, `v` the holder at `b`:
`this->data_m = v.data_m->clone();`; there is no result when `v.data_m` is null. -/
def any.copy_assign (a b : Addr) (w : AnyWorld τ ν) : Option (AnyWorld τ ν) :=
  match (w.mem b).data_m with
  | none => none
  | some box =>
    match box.clone with
    | none => some (any.reset none a w)
    | some copy => some (any.reset (AnyWorld.alloc copy w).1 a (AnyWorld.alloc copy w).2)

/-- The move assignment `any::operator=(any&& v)`, `v` the holder at `b`:
`this->data_m = std::move(v.data_m);`: `v.data_m` is released (it becomes null), then `data_m`
takes the released pointer. -/
def any.move_assign (a b : Addr) (w : AnyWorld τ ν) : AnyWorld τ ν :=
  any.reset (w.mem b).data_m a (w.set b { data_m := none })

/-- The copy constructor `any(const any& v) { *this = v; }`: `data_m` starts null. -/
def any.ctor_copy (a b : Addr) (w : AnyWorld τ ν) : Option (AnyWorld τ ν) :=
  any.copy_assign a b (w.set a { data_m := none })

/-- The move constructor `any(any&& v) { *this = std::move(v); }`: `data_m` starts null. -/
def any.ctor_move (a b : Addr) (w : AnyWorld τ ν) : AnyWorld τ ν :=
  any.move_assign a b (w.set a { data_m := none })

/-- The friend function `any_cast<T>(any* v)` (and its `const any*` overload), pointer form: a
null pointer (`none`), or the pointer to the member `value` of the box, given by the value it
points to.  The `dynamic_cast<holder<T>*>` succeeds exactly on a box of class `holder<T>`. -/
def any_cast_ptr (T : τ) (v : Option Addr) (w : AnyWorld τ ν) : Option ν :=
  match v with
  | none => none
  | some a =>
    match (w.mem a).data_m with
    | some (any.holder_base.holder U value) => if U = T then some value else none
    | _ => none

/-- The exception thrown by the value form of `any_cast`. -/
def bad_any_cast : runtime_error :=
  { what := "Bad ant cast" }

/-- The function `any_cast<T>(any& v)` (and its `const any&` overload), value form, with `T`
standing for `remove_cv<remove_reference<T>>`, the type the source passes on to the pointer form:
the value `static_cast<T>(*p)`, or the exception. -/
def any_cast (T : τ) (a : Addr) (w : AnyWorld τ ν) : Except runtime_error ν :=
  match any_cast_ptr T (some a) w with
  | some x => Except.ok x
  | none => Except.error bad_any_cast

/-- The public operations that construct or assign holders. -/
inductive AnyOp (τ ν : Type) where
  | ctor_default (a : Addr)
  | ctor_value (a : Addr) (T : τ) (v : ν)
  | ctor_copy (a b : Addr)
  | ctor_move (a b : Addr)
  | assign (a : Addr) (T : τ) (v : ν)
  | copy_assign (a b : Addr)
  | move_assign (a b : Addr)

/-- Run one operation. -/
def AnyOp.run : AnyOp τ ν → AnyWorld τ ν → Option (AnyWorld τ ν)
  | AnyOp.ctor_default a, w => some (any.ctor_default a w)
  | AnyOp.ctor_value a T v, w => some (any.ctor_value T v a w)
  | AnyOp.ctor_copy a b, w => any.ctor_copy a b w
  | AnyOp.ctor_move a b, w => some (any.ctor_move a b w)
  | AnyOp.assign a T v, w => some (any.assign T v a w)
  | AnyOp.copy_assign a b, w => any.copy_assign a b w
  | AnyOp.move_assign a b, w => some (any.move_assign a b w)

/-- The holder an operation constructs or assigns to. -/
def AnyOp.dst : AnyOp τ ν → Addr
  | AnyOp.ctor_default a => a
  | AnyOp.ctor_value a _ _ => a
  | AnyOp.ctor_copy a _ => a
  | AnyOp.ctor_move a _ => a
  | AnyOp.assign a _ _ => a
  | AnyOp.copy_assign a _ => a
  | AnyOp.move_assign a _ => a

/-- The holder an operation copies or moves from, when there is one. -/
def AnyOp.src : AnyOp τ ν → Option Addr
  | AnyOp.ctor_copy _ b => some b
  | AnyOp.ctor_move _ b => some b
  | AnyOp.copy_assign _ b => some b
  | AnyOp.move_assign _ b => some b
  | _ => none

/-- Whether the operation moves from its source. -/
def AnyOp.is_move : AnyOp τ ν → Bool
  | AnyOp.ctor_move _ _ => true
  | AnyOp.move_assign _ _ => true
  | _ => false

/-- Whether the operation is a constructor. -/
def AnyOp.is_ctor : AnyOp τ ν → Bool
  | AnyOp.assign _ _ _ => false
  | AnyOp.copy_assign _ _ => false
  | AnyOp.move_assign _ _ => false
  | _ => true

/-- The holders that exist before the operation and take part in it. -/
def AnyOp.operands : AnyOp τ ν → List Addr
  | AnyOp.ctor_default _ => []
  | AnyOp.ctor_value _ _ _ => []
  | AnyOp.ctor_copy _ b => [b]
  | AnyOp.ctor_move _ b => [b]
  | AnyOp.assign a _ _ => [a]
  | AnyOp.copy_assign a b => [a, b]
  | AnyOp.move_assign a b => [a, b]

/-- The holders involved in the operation, destination and source. -/
def AnyOp.involved : AnyOp τ ν → List Addr
  | AnyOp.ctor_default a => [a]
  | AnyOp.ctor_value a _ _ => [a]
  | AnyOp.ctor_copy a b => [a, b]
  | AnyOp.ctor_move a b => [a, b]
  | AnyOp.assign a _ _ => [a]
  | AnyOp.copy_assign a b => [a, b]
  | AnyOp.move_assign a b => [a, b]

/-- The implicitly defined destructor `~any()`: the destructor of `data_m` deletes the box it
owns, if it owns one. -/
def any.dtor (a : Addr) (w : AnyWorld τ ν) : AnyWorld τ ν :=
  any.reset none a w

/-- The overloads of the constructors, and of the assignment operators, that take one argument:
the template with a forwarding reference `T&&`, the copy member taking `const any&`, the move
member taking `any&&`.  (For an argument of type `any` the template taking `const T&` has the
signature of the copy member and loses to it.) -/
inductive any.overload where
  | forwarding
  | copy
  | move
deriving DecidableEq, Repr

/-- Overload resolution for an argument expression of type `any`, const-qualified or not, an
rvalue or an lvalue.  A non-const lvalue binds to `any&` (`T = any&`) better than to
`const any&`; a const rvalue binds to `const any&&` (`T = const any`) better than to
`const any&`; where the template has the signature of a member, the member is chosen. -/
def any.select (is_const is_rvalue : Bool) : any.overload :=
  match is_const, is_rvalue with
  | false, false => any.overload.forwarding
  | true, false => any.overload.copy
  | false, true => any.overload.move
  | true, true => any.overload.forwarding

/-- The member `value` of a `holder<any>` constructed from the holder `v`: `value(v)` runs the
copy constructor `any(const any&)`, that is `data_m = v.data_m->clone()` on a null `data_m`;
there is no result when `v.data_m` is null. -/
def any.copy_of (v : any τ ν) : Option (any τ ν) :=
  match v.data_m with
  | none => none
  | some box => some { data_m := box.clone }

/-- The events of `any.copy_of`: the allocation made by `clone`, if it makes one. -/
def any.copy_events (v : any τ ν) : List (BoxEvent τ ν) :=
  match v.data_m with
  | none => []
  | some box =>
    match box.clone with
    | none => []
    | some copy => [BoxEvent.alloc copy]

/-- The declaration `any x(arg);` at address `a`, with `arg` an expression of type `any` that
denotes the holder at `b`.  `any_t` is the type `cpp11::any` itself and `enc c` the value of an
object of that type in state `c`.  The forwarding template makes `new holder<any>(v)`. -/
def any.ctor_from_any (any_t : τ) (enc : any τ ν → ν) (is_const is_rvalue : Bool) (a b : Addr)
    (w : AnyWorld τ ν) : Option (AnyWorld τ ν) :=
  match any.select is_const is_rvalue with
  | any.overload.copy => any.ctor_copy a b w
  | any.overload.move => some (any.ctor_move a b w)
  | any.overload.forwarding =>
    match any.copy_of (w.mem b) with
    | none => none
    | some c =>
      some (any.ctor_value any_t (enc c) a (w.emit (any.copy_events (w.mem b))))

/-- The assignment `x = arg;` to the holder at `a`, with `arg` an expression of type `any` that
denotes the holder at `b`.  The forwarding template assigns
`new holder<any>(std::forward<T>(v))`. -/
def any.assign_from_any (any_t : τ) (enc : any τ ν → ν) (is_const is_rvalue : Bool) (a b : Addr)
    (w : AnyWorld τ ν) : Option (AnyWorld τ ν) :=
  match any.select is_const is_rvalue with
  | any.overload.copy => any.copy_assign a b w
  | any.overload.move => some (any.move_assign a b w)
  | any.overload.forwarding =>
    match any.copy_of (w.mem b) with
    | none => none
    | some c =>
      some (any.assign any_t (enc c) a (w.emit (any.copy_events (w.mem b))))

end any_model

/-! ## Exception handlers -/

/-- The type a handler names: `catch (...)`, `catch (const std::exception&)`,
`catch (const std::runtime_error&)`, or a handler for another class, one that is neither
`std::runtime_error` nor a base class of it. -/
inductive handler where
  | ellipsis
  | std_exception
  | std_runtime_error
  | other (name : String)
deriving DecidableEq, Repr

/-- Whether a handler catches an exception object thrown by one of the two headers.  A handler
is selected on the class of the exception object; every `throw` of the two headers throws a
`std::runtime_error`. -/
def handler.catches : handler → runtime_error → Bool
  | handler.ellipsis, _ => true
  | handler.std_exception, _ => true
  | handler.std_runtime_error, _ => true
  | handler.other _, _ => false

/-! ## Concrete types for the examples -/

namespace fixture

/-- A few C++ types: `int`, `std::string`, `double`, a class `Counter` whose constructors
increment a global counter and whose destructor decrements it, and `std::nullptr_t`. -/
inductive Ty where
  | int
  | string
  | double
  | counter
  | nullptr_t
deriving DecidableEq, Repr

/-- Values of these types. -/
inductive Val where
  | int (n : Int)
  | str (s : String)
  | dbl (bits : Nat)
  | unit
  | junk
deriving DecidableEq, Repr

/-- Value-initialisation `T()`. -/
def dflt : Ty → Val
  | Ty.int => Val.int 0
  | Ty.string => Val.str ""
  | Ty.double => Val.dbl 0
  | Ty.counter => Val.unit
  | Ty.nullptr_t => Val.unit

/-- What a move leaves behind: an empty string for `std::string`, the same value otherwise. -/
def moved : Ty → Val → Val
  | Ty.string, _ => Val.str ""
  | _, v => v

/-- Whether `~T()` runs no code: true for the scalar types, false for `std::string` and for
`Counter`. -/
def trivially_destructible : Ty → Bool
  | Ty.int => true
  | Ty.double => true
  | Ty.nullptr_t => true
  | Ty.string => false
  | Ty.counter => false

/-- Memory before any variant has been constructed: no object alive anywhere, empty trace,
behaviour defined. -/
def raw : World Ty Val :=
  { mem := fun _ => { storage_m := { x := Val.junk, alive := none }, index_m := 0 }, log := [],
    undefined := false, trivially_destructible := trivially_destructible }

/-- The world that `variant<std::string, int> v(std::string("hi"));` with `v` at address 0 is
meant to produce: `v` holds a live `std::string` "hi" at index 0, nothing else has been
constructed, and the behaviour is defined. -/
def text : World Ty Val :=
  { mem := fun a =>
      if a = 0 then { storage_m := { x := Val.str "hi", alive := some Ty.string }, index_m := 0 }
      else { storage_m := { x := Val.junk, alive := none }, index_m := 0 },
    log := [], undefined := false, trivially_destructible := trivially_destructible }

/-- The world after `variant<int, std::string> v; v = std::string("hi");` with `v` at address 0
(`raw` if an operation had no defined result). -/
def hi : World Ty Val :=
  ((variant.ctor_default moved dflt Ty.int [Ty.string] 0 raw).bind
    (variant.assign moved Ty.int [Ty.string] Ty.string true (Ref.obj (Val.str "hi")) 0)).getD raw

/-- The world `hi` after a further `variant<int, std::string> u;` with `u` at address 1. -/
def hi_and_zero : World Ty Val :=
  (variant.ctor_default moved dflt Ty.int [Ty.string] 1 hi).getD raw

/-- The world after `variant<int, std::string, int> v; v = 5;` with `v` at address 0. -/
def dup : World Ty Val :=
  ((variant.ctor_default moved dflt Ty.int [Ty.string, Ty.int] 0 raw).bind
    (variant.assign moved Ty.int [Ty.string, Ty.int] Ty.int true (Ref.obj (Val.int 5)) 0)).getD raw

/-- The world after `variant<int, std::string, double> v; v = 42;` with `v` at address 0. -/
def answer : World Ty Val :=
  ((variant.ctor_default moved dflt Ty.int [Ty.string, Ty.double] 0 raw).bind
    (variant.assign moved Ty.int [Ty.string, Ty.double] Ty.int true (Ref.obj (Val.int 42)) 0)).getD
      raw

/-- Memory in which no holder has been constructed: every `data_m` null, empty trace. -/
def any_raw : AnyWorld Ty Val :=
  { mem := fun _ => { data_m := none }, log := [] }

/-- The world after `any a(7);` with `a` at address 0. -/
def seven : AnyWorld Ty Val :=
  any.ctor_value Ty.int (Val.int 7) 0 any_raw

/-- The world after `any a(7); any b;` with `a` at address 0 and `b` at address 1. -/
def seven_and_empty : AnyWorld Ty Val :=
  any.ctor_default 1 seven

/-- Sizes of the types, in bytes, on a common 64-bit platform. -/
def sizeof : Ty → Nat
  | Ty.int => 4
  | Ty.string => 32
  | Ty.double => 8
  | Ty.counter => 1
  | Ty.nullptr_t => 8

/-- The world after `any a; any b(nullptr);` with `a` at address 0 and `b` at address 1. -/
def empty_and_null : AnyWorld Ty Val :=
  any.ctor_value Ty.nullptr_t Val.unit 1 (any.ctor_default 0 any_raw)

end fixture

/-! ## Lemmas about the world and the index computation -/

section world_lemmas

variable {τ ν : Type}

@[simp] theorem World.set_mem_same (w : World τ ν) (a : Addr) (v : variant τ ν) :
    (w.set a v).mem a = v := by
  simp [World.set]

@[simp] theorem World.set_mem_other (w : World τ ν) (a b : Addr) (v : variant τ ν) (h : b ≠ a) :
    (w.set a v).mem b = w.mem b := by
  simp [World.set, h]

@[simp] theorem World.set_log (w : World τ ν) (a : Addr) (v : variant τ ν) :
    (w.set a v).log = w.log := rfl

@[simp] theorem World.emit_mem (w : World τ ν) (es : List (Event τ)) :
    (w.emit es).mem = w.mem := rfl

@[simp] theorem World.emit_log (w : World τ ν) (es : List (Event τ)) :
    (w.emit es).log = w.log ++ es := rfl

@[simp] theorem World.mark_mem (w : World τ ν) (c : Bool) : (w.mark c).mem = w.mem := rfl

@[simp] theorem World.mark_log (w : World τ ν) (c : Bool) : (w.mark c).log = w.log := rfl

@[simp] theorem World.mark_undefined (w : World τ ν) (c : Bool) :
    (w.mark c).undefined = (w.undefined || c) := rfl

@[simp] theorem World.mark_trivially_destructible (w : World τ ν) (c : Bool) :
    (w.mark c).trivially_destructible = w.trivially_destructible := rfl

@[simp] theorem World.set_undefined (w : World τ ν) (a : Addr) (v : variant τ ν) :
    (w.set a v).undefined = w.undefined := rfl

@[simp] theorem World.emit_undefined (w : World τ ν) (es : List (Event τ)) :
    (w.emit es).undefined = w.undefined := rfl

@[simp] theorem World.set_trivially_destructible (w : World τ ν) (a : Addr) (v : variant τ ν) :
    (w.set a v).trivially_destructible = w.trivially_destructible := rfl

@[simp] theorem World.emit_trivially_destructible (w : World τ ν) (es : List (Event τ)) :
    (w.emit es).trivially_destructible = w.trivially_destructible := rfl

theorem World.set_mem (w : World τ ν) (a b : Addr) (v : variant τ ν) :
    (w.set a v).mem b = if b = a then v else w.mem b := rfl

theorem visit_eq {ρ : Type} (First : τ) (Types : List τ) (vis : Visitor τ ν ρ) (a : Addr)
    (w : World τ ν) (T : τ) (h : (First :: Types)[variant.index a w]? = some T) :
    visit First Types vis a w = vis T (Ref.slot a) w := by
  unfold visit
  rw [List.getElem?_map, h]
  rfl

theorem visit_some_inv {ρ : Type} (First : τ) (Types : List τ) (vis : Visitor τ ν ρ) (a : Addr)
    (w : World τ ν) (r : ρ × World τ ν) (h : visit First Types vis a w = some r) :
    ∃ T, (First :: Types)[variant.index a w]? = some T ∧ vis T (Ref.slot a) w = some r := by
  cases hi : (First :: Types)[variant.index a w]? with
  | none =>
    unfold visit at h
    rw [List.getElem?_map, hi] at h
    simp at h
  | some T =>
    rw [visit_eq First Types vis a w T hi] at h
    exact ⟨T, rfl, h⟩

/-- The type selected by `variant_max_size_type_impl` is `T` or one of the listed types, it is at
least as large as each of them, and it is `T` or `First` or has a size that one of them has. -/
theorem detail.variant_max_size_type_impl_spec (sizeof : τ → Nat) (T First : τ)
    (Types : List τ) :
    (detail.variant_max_size_type_impl sizeof T First Types = T
      ∨ detail.variant_max_size_type_impl sizeof T First Types ∈ First :: Types)
    ∧ sizeof T ≤ sizeof (detail.variant_max_size_type_impl sizeof T First Types)
    ∧ ∀ U ∈ First :: Types,
        sizeof U ≤ sizeof (detail.variant_max_size_type_impl sizeof T First Types) := by
  induction Types generalizing T First with
  | nil =>
    simp only [detail.variant_max_size_type_impl, List.mem_singleton]
    by_cases h : sizeof T > sizeof First
    · rw [if_pos h]
      exact ⟨Or.inl rfl, le_refl _, fun U hU => by rw [hU]; exact Nat.le_of_lt h⟩
    · rw [if_neg h]
      exact ⟨Or.inr rfl, Nat.le_of_not_lt h, fun U hU => by rw [hU]⟩
  | cons Second Types ih =>
    simp only [detail.variant_max_size_type_impl]
    obtain ⟨h1, h2, h3⟩ := ih (if sizeof T > sizeof First then T else First) Second
    by_cases h : sizeof T > sizeof First
    · rw [if_pos h] at h1 h2 h3 ⊢
      refine ⟨?_, h2, ?_⟩
      · rcases h1 with h1 | h1
        · exact Or.inl h1
        · exact Or.inr (List.mem_cons_of_mem _ h1)
      · intro U hU
        rcases List.mem_cons.mp hU with hU | hU
        · rw [hU]
          exact le_trans (Nat.le_of_lt h) h2
        · exact h3 U hU
    · rw [if_neg h] at h1 h2 h3 ⊢
      refine ⟨?_, le_trans (Nat.le_of_not_lt h) h2, ?_⟩
      · rcases h1 with h1 | h1
        · rw [h1]
          exact Or.inr (List.mem_cons_self _ _)
        · exact Or.inr (List.mem_cons_of_mem _ h1)
      · intro U hU
        rcases List.mem_cons.mp hU with hU | hU
        · rw [hU]
          exact h2
        · exact h3 U hU

/-- The largest of a list of sizes bounds every element, and is one of them or 0. -/
theorem foldr_max_spec (l : List Nat) :
    (∀ n ∈ l, n ≤ l.foldr max 0) ∧ (l.foldr max 0 = 0 ∨ l.foldr max 0 ∈ l) := by
  induction l with
  | nil => simp
  | cons x xs ih =>
    obtain ⟨h1, h2⟩ := ih
    simp only [List.foldr_cons, List.mem_cons]
    refine ⟨?_, ?_⟩
    · intro n hn
      rcases hn with hn | hn
      · rw [hn]
        exact le_max_left _ _
      · exact le_trans (h1 n hn) (le_max_right _ _)
    · right
      rcases max_cases x (xs.foldr max 0) with ⟨h, -⟩ | ⟨h, hlt⟩
      · exact Or.inl h
      · rw [h]
        rcases h2 with h2 | h2
        · rw [h2] at hlt
          exact absurd hlt (Nat.not_lt_zero _)
        · exact Or.inr h2

end world_lemmas

section variant_lemmas

variable {τ ν : Type} [DecidableEq τ]

theorem detail.variant_index_impl_eq (N : Nat) (T First : τ) (Types : List τ) :
    detail.variant_index_impl N T First Types =
      if T ∈ First :: Types then
        some (N - (Types.length - List.indexOf T (First :: Types))) else none := by
  induction Types generalizing First with
  | nil =>
    by_cases h : First = T
    · subst h; simp [detail.variant_index_impl]
    · have h2 : ¬ T = First := fun e => h e.symm
      simp [detail.variant_index_impl, h, h2]
  | cons Second Types ih =>
    by_cases h : First = T
    · subst h; simp [detail.variant_index_impl]
    · have h2 : ¬ T = First := fun e => h e.symm
      rw [detail.variant_index_impl, if_neg h, ih Second, List.indexOf_cons_ne _ h]
      simp [h2]

/-- The index computed for `T` is the position of its first occurrence among the alternatives. -/
theorem detail.variant_index_eq (T First : τ) (Types : List τ) :
    detail.variant_index T First Types =
      if T ∈ First :: Types then some (List.indexOf T (First :: Types)) else none := by
  rw [detail.variant_index, detail.variant_index_impl_eq]
  by_cases h : T ∈ First :: Types
  · have hlt : List.indexOf T (First :: Types) < (First :: Types).length :=
      List.indexOf_lt_length.mpr h
    simp only [List.length_cons] at hlt
    rw [if_pos h, if_pos h]
    congr 1
    omega
  · rw [if_neg h, if_neg h]

theorem variant.destroy_eq (First : τ) (Types : List τ) (a : Addr) (w : World τ ν) (Ti : τ)
    (h : (First :: Types)[variant.index a w]? = some Ti) :
    variant.destroy First Types a w = some (variant.destroy_thunk Ti a w) := by
  unfold variant.destroy
  rw [List.getElem?_map, h]
  rfl

/-- Assignment from an object outside the variant: the resulting world. -/
theorem variant.assign_obj_spec (mv : τ → ν → ν) (First : τ) (Types : List τ) (T : τ)
    (rv : Bool) (x : ν) (a : Addr) (w : World τ ν) (Ti : τ)
    (hT : T ∈ First :: Types) (h : (First :: Types)[variant.index a w]? = some Ti) :
    ∃ w1, variant.assign mv First Types T rv (Ref.obj x) a w = some w1
      ∧ w1.mem a = { storage_m := { x := x, alive := some T },
                     index_m := List.indexOf T (First :: Types) }
      ∧ (∀ b, b ≠ a → w1.mem b = w.mem b)
      ∧ w1.log = w.log ++ [Event.destruct Ti (decide ((w.mem a).storage_m.alive = some Ti)),
                            Event.construct T] := by
  unfold variant.assign
  rw [detail.variant_index_eq, if_pos hT, variant.destroy_eq First Types a w Ti h]
  refine ⟨_, rfl, ?_, ?_, ?_⟩
  · cases rv <;> simp [World.move_from, World.read, World.deref, detail.variant_storage.assign]
  · intro b hb
    cases rv <;> simp [World.move_from, World.read, variant.destroy_thunk, hb]
  · cases rv <;> simp [World.move_from, World.read, variant.destroy_thunk]

/-- When `operator=(T&&)` has a defined result, `T` is an alternative and the index of the
variant addresses a destructor thunk. -/
theorem variant.assign_some_inv (mv : τ → ν → ν) (First : τ) (Types : List τ) (T : τ)
    (rv : Bool) (v : Ref ν) (a : Addr) (w w1 : World τ ν)
    (h : variant.assign mv First Types T rv v a w = some w1) :
    T ∈ First :: Types ∧ ∃ Ti, (First :: Types)[variant.index a w]? = some Ti := by
  unfold variant.assign at h
  rw [detail.variant_index_eq] at h
  by_cases hT : T ∈ First :: Types
  · refine ⟨hT, ?_⟩
    cases hi : (First :: Types)[variant.index a w]? with
    | some Ti => exact ⟨Ti, rfl⟩
    | none =>
      have hd : variant.destroy First Types a w = none := by
        unfold variant.destroy
        rw [List.getElem?_map, hi]
        rfl
      rw [if_pos hT] at h
      simp [hd] at h
  · rw [if_neg hT] at h
    simp at h

/-- Copy-assignment of the object found in the storage at `p` (possibly the variant itself). -/
theorem variant.assign_slot_copy_spec (mv : τ → ν → ν) (First : τ) (Types : List τ) (T : τ)
    (p a : Addr) (w : World τ ν) (Ti : τ)
    (hT : T ∈ First :: Types) (h : (First :: Types)[variant.index a w]? = some Ti) :
    ∃ w1, variant.assign mv First Types T false (Ref.slot p) a w = some w1
      ∧ w1.mem a = { storage_m := { x := (w.mem p).storage_m.x, alive := some T },
                     index_m := List.indexOf T (First :: Types) }
      ∧ (∀ b, b ≠ a → w1.mem b = w.mem b) := by
  unfold variant.assign
  rw [detail.variant_index_eq, if_pos hT, variant.destroy_eq First Types a w Ti h]
  refine ⟨_, rfl, ?_, ?_⟩
  · by_cases hp : p = a
    · subst hp
      simp [World.read, World.deref, detail.variant_storage.assign, variant.destroy_thunk]
    · simp [World.read, World.deref, detail.variant_storage.assign, variant.destroy_thunk, hp]
  · intro b hb
    simp [World.read, variant.destroy_thunk, hb]

/-- Move-assignment of the object found in the storage of another variant, at `p`. -/
theorem variant.assign_slot_move_spec (mv : τ → ν → ν) (First : τ) (Types : List τ) (T : τ)
    (p a : Addr) (w : World τ ν) (Ti : τ) (hp : p ≠ a)
    (hT : T ∈ First :: Types) (h : (First :: Types)[variant.index a w]? = some Ti) :
    ∃ w1, variant.assign mv First Types T true (Ref.slot p) a w = some w1
      ∧ w1.mem a = { storage_m := { x := (w.mem p).storage_m.x, alive := some T },
                     index_m := List.indexOf T (First :: Types) }
      ∧ w1.mem p = { w.mem p with
          storage_m := { (w.mem p).storage_m with x := mv T (w.mem p).storage_m.x } }
      ∧ (∀ b, b ≠ a → b ≠ p → w1.mem b = w.mem b) := by
  unfold variant.assign
  rw [detail.variant_index_eq, if_pos hT, variant.destroy_eq First Types a w Ti h]
  have hap : a ≠ p := fun e => hp e.symm
  refine ⟨_, rfl, ?_, ?_, ?_⟩
  · simp [World.read, World.deref, World.move_from, detail.variant_storage.assign,
      variant.destroy_thunk, hp, hap]
  · simp [World.read, World.deref, World.move_from, detail.variant_storage.assign,
      variant.destroy_thunk, hp, hap]
  · intro b hb hbp
    simp [World.read, World.move_from, variant.destroy_thunk, hb, hbp]

/-- Move-assignment of the object found in the variant's own storage. -/
theorem variant.assign_self_move_spec (mv : τ → ν → ν) (First : τ) (Types : List τ) (T : τ)
    (a : Addr) (w : World τ ν) (Ti : τ)
    (hT : T ∈ First :: Types) (h : (First :: Types)[variant.index a w]? = some Ti) :
    ∃ w1, variant.assign mv First Types T true (Ref.slot a) a w = some w1
      ∧ w1.mem a = { storage_m := { x := mv T (w.mem a).storage_m.x, alive := some T },
                     index_m := List.indexOf T (First :: Types) }
      ∧ (∀ b, b ≠ a → w1.mem b = w.mem b) := by
  unfold variant.assign
  rw [detail.variant_index_eq, if_pos hT, variant.destroy_eq First Types a w Ti h]
  refine ⟨_, rfl, ?_, ?_⟩
  · simp [World.read, World.deref, World.move_from, detail.variant_storage.assign,
      variant.destroy_thunk]
  · intro b hb
    simp [World.read, World.move_from, variant.destroy_thunk, hb]

/-- What every assignment with a defined result does to the liveness and the indices. -/
theorem variant.assign_inv (mv : τ → ν → ν) (First : τ) (Types : List τ) (T : τ)
    (rv : Bool) (v : Ref ν) (a : Addr) (w w1 : World τ ν)
    (h : variant.assign mv First Types T rv v a w = some w1) :
    T ∈ First :: Types
    ∧ (w1.mem a).storage_m.alive = some T
    ∧ (w1.mem a).index_m = List.indexOf T (First :: Types)
    ∧ ∀ b, b ≠ a → (w1.mem b).storage_m.alive = (w.mem b).storage_m.alive
        ∧ (w1.mem b).index_m = (w.mem b).index_m := by
  obtain ⟨hT, Ti, hTi⟩ := variant.assign_some_inv mv First Types T rv v a w w1 h
  refine ⟨hT, ?_⟩
  cases v with
  | obj x =>
    obtain ⟨w2, h2, ha, hb, -⟩ := variant.assign_obj_spec mv First Types T rv x a w Ti hT hTi
    rw [h] at h2
    cases h2
    refine ⟨by rw [ha], by rw [ha], fun b hba => ?_⟩
    rw [hb b hba]
    exact ⟨rfl, rfl⟩
  | slot p =>
    cases rv with
    | false =>
      obtain ⟨w2, h2, ha, hb⟩ := variant.assign_slot_copy_spec mv First Types T p a w Ti hT hTi
      rw [h] at h2
      cases h2
      refine ⟨by rw [ha], by rw [ha], fun b hba => ?_⟩
      rw [hb b hba]
      exact ⟨rfl, rfl⟩
    | true =>
      by_cases hp : p = a
      · subst hp
        obtain ⟨w2, h2, ha, hb⟩ := variant.assign_self_move_spec mv First Types T p w Ti hT hTi
        rw [h] at h2
        cases h2
        refine ⟨by rw [ha], by rw [ha], fun b hba => ?_⟩
        rw [hb b hba]
        exact ⟨rfl, rfl⟩
      · obtain ⟨w2, h2, ha, hpp, hb⟩ :=
          variant.assign_slot_move_spec mv First Types T p a w Ti hp hT hTi
        rw [h] at h2
        cases h2
        refine ⟨by rw [ha], by rw [ha], fun b hba => ?_⟩
        by_cases hbp : b = p
        · subst hbp
          rw [hpp]
          exact ⟨rfl, rfl⟩
        · rw [hb b hba hbp]
          exact ⟨rfl, rfl⟩

theorem variant.Inv_congr (First : τ) (Types : List τ) (v v1 : variant τ ν)
    (h1 : v1.storage_m.alive = v.storage_m.alive) (h2 : v1.index_m = v.index_m)
    (h : variant.Inv First Types v) : variant.Inv First Types v1 := by
  intro T hT
  rw [h1] at hT
  rw [h2]
  exact h T hT

theorem variant.Inv_of_dead (First : τ) (Types : List τ) (v : variant τ ν)
    (h : v.storage_m.alive = none) : variant.Inv First Types v := by
  intro T hT
  rw [h] at hT
  exact Option.noConfusion hT

theorem variant.Inv_of_assigned (First : τ) (Types : List τ) (v : variant τ ν) (T : τ)
    (hT : T ∈ First :: Types) (h1 : v.storage_m.alive = some T)
    (h2 : v.index_m = List.indexOf T (First :: Types)) : variant.Inv First Types v := by
  intro U hU
  rw [h1] at hU
  cases hU
  have hlt : List.indexOf T (First :: Types) < (First :: Types).length :=
    List.indexOf_lt_length.mpr hT
  rw [h2, detail.variant_index_eq, if_pos hT, List.getElem?_eq_getElem hlt]
  exact ⟨congrArg some (List.getElem_indexOf hlt), rfl⟩

theorem variant.destroy_spec (First : τ) (Types : List τ) (a : Addr) (w w1 : World τ ν)
    (h : variant.destroy First Types a w = some w1) :
    (w1.mem a).storage_m.alive = none ∧ ∀ b, b ≠ a → w1.mem b = w.mem b := by
  unfold variant.destroy at h
  rw [List.getElem?_map] at h
  cases hi : (First :: Types)[variant.index a w]? with
  | none => rw [hi] at h; simp at h
  | some Ti =>
    rw [hi] at h
    simp only [Option.map_some', Option.some.injEq] at h
    subst h
    refine ⟨by simp [variant.destroy_thunk], fun b hb => ?_⟩
    simp [variant.destroy_thunk, hb]

theorem World.Inv_assign (mv : τ → ν → ν) (First : τ) (Types : List τ) (T : τ)
    (rv : Bool) (v : Ref ν) (a : Addr) (w w1 : World τ ν)
    (hw : World.Inv First Types w)
    (h : variant.assign mv First Types T rv v a w = some w1) : World.Inv First Types w1 := by
  obtain ⟨hT, h1, h2, h3⟩ := variant.assign_inv mv First Types T rv v a w w1 h
  intro b
  by_cases hb : b = a
  · subst hb
    exact variant.Inv_of_assigned First Types _ T hT h1 h2
  · exact variant.Inv_congr First Types _ _ (h3 b hb).1 (h3 b hb).2 (hw b)

theorem World.Inv_member_init (First : τ) (Types : List τ) (a : Addr) (w : World τ ν)
    (hw : World.Inv First Types w) : World.Inv First Types (variant.member_init a w) := by
  intro b
  by_cases hb : b = a
  · subst hb
    exact variant.Inv_of_dead First Types _ (by simp [variant.member_init])
  · simp only [variant.member_init, World.set_mem_other _ _ _ _ hb]
    exact hw b

theorem World.Inv_emit (First : τ) (Types : List τ) (es : List (Event τ)) (w : World τ ν)
    (hw : World.Inv First Types w) : World.Inv First Types (w.emit es) := hw

theorem World.Inv_write (First : τ) (Types : List τ) (r : Ref ν) (y : ν) (w : World τ ν)
    (hw : World.Inv First Types w) : World.Inv First Types (w.write r y) := by
  cases r with
  | obj x => exact hw
  | slot p =>
    intro b
    by_cases hb : b = p
    · subst hb
      simp only [World.write, World.set_mem_same]
      exact variant.Inv_congr First Types (w.mem b) _ rfl rfl (hw b)
    · simp only [World.write, World.set_mem_other _ _ _ _ hb]
      exact hw b

theorem World.Inv_read (First : τ) (Types : List τ) (T : τ) (r : Ref ν) (w : World τ ν)
    (hw : World.Inv First Types w) : World.Inv First Types (w.read T r) := by
  cases r with
  | obj x => exact hw
  | slot p => exact hw

theorem get_snd (First : τ) (Types : List τ) (T : τ) (a : Addr) (w : World τ ν)
    (r : Except runtime_error (Ref ν) × World τ ν) (h : get First Types T a w = some r) :
    r.2 = w := by
  unfold get at h
  split at h
  · exact Option.noConfusion h
  · split at h
    · cases h; rfl
    · cases h; rfl

/-- Every public operation preserves the state invariant of every variant. -/
theorem op_run_inv (mv : τ → ν → ν) (dflt : τ → ν) (First : τ) (Types : List τ)
    (op : Op τ ν) (w w1 : World τ ν) (hw : World.Inv First Types w)
    (h : Op.run mv dflt First Types op w = some w1) : World.Inv First Types w1 := by
  cases op with
  | ctor_default a =>
    simp only [Op.run, variant.ctor_default] at h
    split at h
    · exact Option.noConfusion h
    · rename_i w2 h2
      cases h
      exact World.Inv_emit First Types _ _
        (World.Inv_assign mv First Types _ _ _ a _ w2
          (World.Inv_emit First Types _ _ (World.Inv_member_init First Types a w hw)) h2)
  | ctor_value a T rv v =>
    exact World.Inv_assign mv First Types T rv v a _ w1
      (World.Inv_member_init First Types a w hw) h
  | ctor_copy a b =>
    simp only [Op.run, variant.ctor_copy, variant.copy_assign, Option.map_eq_some'] at h
    obtain ⟨r, hr, rfl⟩ := h
    obtain ⟨T, -, hv⟩ := visit_some_inv First Types _ b _ r hr
    simp only [variant.copy_visitor, Option.map_eq_some'] at hv
    obtain ⟨w2, h2, rfl⟩ := hv
    exact World.Inv_assign mv First Types T false _ a _ w2
      (World.Inv_member_init First Types a w hw) h2
  | ctor_move a b =>
    simp only [Op.run, variant.ctor_move, variant.move_assign, Option.map_eq_some'] at h
    obtain ⟨r, hr, rfl⟩ := h
    obtain ⟨T, -, hv⟩ := visit_some_inv First Types _ b _ r hr
    simp only [variant.move_visitor, Option.map_eq_some'] at hv
    obtain ⟨w2, h2, rfl⟩ := hv
    exact World.Inv_assign mv First Types T true _ a _ w2
      (World.Inv_member_init First Types a w hw) h2
  | assign a T rv v => exact World.Inv_assign mv First Types T rv v a w w1 hw h
  | copy_assign a b =>
    simp only [Op.run, variant.copy_assign, Option.map_eq_some'] at h
    obtain ⟨r, hr, rfl⟩ := h
    obtain ⟨T, -, hv⟩ := visit_some_inv First Types _ b _ r hr
    simp only [variant.copy_visitor, Option.map_eq_some'] at hv
    obtain ⟨w2, h2, rfl⟩ := hv
    exact World.Inv_assign mv First Types T false _ a w w2 hw h2
  | move_assign a b =>
    simp only [Op.run, variant.move_assign, Option.map_eq_some'] at h
    obtain ⟨r, hr, rfl⟩ := h
    obtain ⟨T, -, hv⟩ := visit_some_inv First Types _ b _ r hr
    simp only [variant.move_visitor, Option.map_eq_some'] at hv
    obtain ⟨w2, h2, rfl⟩ := hv
    exact World.Inv_assign mv First Types T true _ a w w2 hw h2
  | visit a f =>
    simp only [Op.run, Option.map_eq_some'] at h
    obtain ⟨r, hr, rfl⟩ := h
    obtain ⟨T, -, hv⟩ := visit_some_inv First Types _ a _ r hr
    simp only [value_visitor, Option.some.injEq] at hv
    subst hv
    exact World.Inv_write First Types (Ref.slot a) _ _
      (World.Inv_read First Types T (Ref.slot a) w hw)
  | put a T y =>
    simp only [Op.run, put] at h
    split at h
    · exact Option.noConfusion h
    · rename_i r w2 hg
      cases h
      have : w2 = w := get_snd First Types T a w _ hg
      subst this
      exact World.Inv_write First Types _ _ _ hw
    · rename_i e w2 hg
      cases h
      have : w1 = w := get_snd First Types T a w _ hg
      subst this
      exact hw
  | get a T =>
    simp only [Op.run, Option.map_eq_some'] at h
    obtain ⟨r, hr, rfl⟩ := h
    have : r.2 = w := get_snd First Types T a w r hr
    rw [this]
    exact hw
  | dtor a =>
    simp only [Op.run, variant.dtor] at h
    obtain ⟨h1, h2⟩ := variant.destroy_spec First Types a w w1 h
    intro b
    by_cases hb : b = a
    · subst hb
      exact variant.Inv_of_dead First Types _ h1
    · rw [h2 b hb]
      exact hw b

theorem run_ops_inv (mv : τ → ν → ν) (dflt : τ → ν) (First : τ) (Types : List τ)
    (ops : List (Op τ ν)) (w w1 : World τ ν) (hw : World.Inv First Types w)
    (h : run_ops mv dflt First Types ops w = some w1) : World.Inv First Types w1 := by
  induction ops generalizing w with
  | nil =>
    simp only [run_ops, Option.some.injEq] at h
    subst h
    exact hw
  | cons op ops ih =>
    simp only [run_ops] at h
    split at h
    · exact Option.noConfusion h
    · rename_i w2 h2
      exact ih w2 (op_run_inv mv dflt First Types op w w2 hw h2) h

/-- In a reachable world every variant satisfies the state invariant. -/
theorem Reachable.inv (mv : τ → ν → ν) (dflt : τ → ν) (First : τ) (Types : List τ)
    (w : World τ ν) (h : Reachable mv dflt First Types w) : World.Inv First Types w := by
  obtain ⟨w0, ops, hraw, hrun⟩ := h
  exact run_ops_inv mv dflt First Types ops w0 w
    (fun a => variant.Inv_of_dead First Types _ (hraw a)) hrun

theorem Reachable.step (mv : τ → ν → ν) (dflt : τ → ν) (First : τ) (Types : List τ)
    (op : Op τ ν) (w w1 : World τ ν) (h : Reachable mv dflt First Types w)
    (h1 : Op.run mv dflt First Types op w = some w1) : Reachable mv dflt First Types w1 := by
  obtain ⟨w0, ops, hraw, hrun⟩ := h
  refine ⟨w0, ops ++ [op], hraw, ?_⟩
  clear hraw
  induction ops generalizing w0 with
  | nil =>
    simp only [run_ops, Option.some.injEq] at hrun
    subst hrun
    simp [run_ops, h1]
  | cons o os ih =>
    simp only [run_ops, List.cons_append] at hrun ⊢
    split at hrun
    · exact Option.noConfusion hrun
    · rename_i w2 h2
      exact ih w2 hrun

theorem counter_append (C : τ) (l1 l2 : List (Event τ)) :
    counter C (l1 ++ l2) = counter C l1 + counter C l2 := by
  induction l1 with
  | nil => simp [counter]
  | cons e es ih =>
    cases e <;> simp [counter, ih, add_assoc]

/-- No element before the position `List.indexOf T l` is `T`. -/
theorem getElem?_ne_of_lt_indexOf (T : τ) (l : List τ) (j : Nat)
    (h : j < List.indexOf T l) : l[j]? ≠ some T := by
  induction l generalizing j with
  | nil => simp
  | cons x xs ih =>
    by_cases hx : x = T
    · rw [List.indexOf_cons_eq _ hx] at h
      exact absurd h (Nat.not_lt_zero _)
    · rw [List.indexOf_cons_ne _ hx] at h
      cases j with
      | zero =>
        simp only [List.getElem?_cons_zero]
        exact fun e => hx (Option.some.inj e)
      | succ k =>
        simp only [List.getElem?_cons_succ]
        exact ih k (Nat.lt_of_succ_lt_succ h)

/-- No alternative before the index computed for `T` is `T`. -/
theorem detail.variant_index_no_earlier (T First : τ) (Types : List τ) (i : Nat)
    (h : detail.variant_index T First Types = some i) :
    ∀ j, j < i → (First :: Types)[j]? ≠ some T := by
  rw [detail.variant_index_eq] at h
  by_cases hT : T ∈ First :: Types
  · rw [if_pos hT] at h
    cases h
    exact fun j hj => getElem?_ne_of_lt_indexOf T _ j hj
  · rw [if_neg hT] at h
    exact Option.noConfusion h

/-- Assignment from an object outside the variant: whether the behaviour is still defined. -/
theorem variant.assign_obj_undefined (mv : τ → ν → ν) (First : τ) (Types : List τ) (T : τ)
    (rv : Bool) (x : ν) (a : Addr) (w w1 : World τ ν) (Ti : τ)
    (h : (First :: Types)[variant.index a w]? = some Ti)
    (hw1 : variant.assign mv First Types T rv (Ref.obj x) a w = some w1) :
    w1.undefined = (w.undefined
      || (!decide ((w.mem a).storage_m.alive = some Ti) && !w.trivially_destructible Ti)) := by
  unfold variant.assign at hw1
  rw [variant.destroy_eq First Types a w Ti h] at hw1
  cases hi : detail.variant_index T First Types with
  | none => rw [hi] at hw1; exact Option.noConfusion hw1
  | some i =>
    rw [hi] at hw1
    cases hw1
    cases rv <;> simp [World.move_from, World.read, variant.destroy_thunk]

end variant_lemmas

/-! ## The claims -/

section variant_claims

variable {τ ν : Type} [DecidableEq τ]

/-- The scenario of the specification, evaluated: after `v = std::string("hi")` the variant
holds a `std::string` equal to "hi"; after `v = 5` it holds an `int` and `get<std::string>`
throws. -/
theorem variant_int_string_scenario :
    holds_alternative fixture.Ty.int [fixture.Ty.string] fixture.Ty.string 0 fixture.hi = some true
    ∧ (get fixture.Ty.int [fixture.Ty.string] fixture.Ty.string 0 fixture.hi).map Prod.fst
        = some (Except.ok (Ref.slot 0))
    ∧ fixture.hi.deref (Ref.slot 0) = fixture.Val.str "hi"
    ∧ ((variant.assign fixture.moved fixture.Ty.int [fixture.Ty.string] fixture.Ty.int true
          (Ref.obj (fixture.Val.int 5)) 0 fixture.hi).bind
        (holds_alternative fixture.Ty.int [fixture.Ty.string] fixture.Ty.int 0)) = some true
    ∧ (((variant.assign fixture.moved fixture.Ty.int [fixture.Ty.string] fixture.Ty.int true
          (Ref.obj (fixture.Val.int 5)) 0 fixture.hi).bind
        (get fixture.Ty.int [fixture.Ty.string] fixture.Ty.string 0)).map Prod.fst)
        = some (Except.error bad_variant_access) := by
  refine ⟨by decide, ?_, by decide, by decide, ?_⟩ <;> rfl

/-- C2: in every world reachable through constructions and assignments, for every live variant
and every declared alternative type `T`: `get<T>` has a defined result and returns the reference
to the stored object exactly when `holds_alternative<T>` is true, that is exactly when `index()` is
the index computed for `T`, and exactly when the live object is a `T`; otherwise it throws the
bad-variant-access error; in both cases the world (index and stored value) is unchanged. -/
theorem get_iff_holds_alternative (mv : τ → ν → ν) (dflt : τ → ν) (First : τ)
    (Types : List τ) (w : World τ ν) (a : Addr) (T : τ)
    (hw : Reachable mv dflt First Types w) (hT : T ∈ First :: Types)
    (hlive : (w.mem a).storage_m.alive ≠ none) :
    ∃ holds : Bool, holds_alternative First Types T a w = some holds
      ∧ get First Types T a w =
          some (if holds then Except.ok (Ref.slot a) else Except.error bad_variant_access, w)
      ∧ (holds = true ↔ detail.variant_index T First Types = some (variant.index a w))
      ∧ (holds = true ↔ (w.mem a).storage_m.alive = some T) := by
  have hinv := Reachable.inv mv dflt First Types w hw a
  refine ⟨decide (List.indexOf T (First :: Types) = variant.index a w), ?_, ?_, ?_, ?_⟩
  · simp [holds_alternative, detail.variant_index_eq, hT]
  · by_cases h : List.indexOf T (First :: Types) = variant.index a w
    · simp [get, detail.variant_index_eq, hT, h, variant.get]
    · have h2 : ¬ variant.index a w = List.indexOf T (First :: Types) := fun e => h e.symm
      simp [get, detail.variant_index_eq, hT, h, h2]
  · simp [detail.variant_index_eq, hT]
  · rw [decide_eq_true_iff]
    constructor
    · intro h
      cases ha : (w.mem a).storage_m.alive with
      | none => exact absurd ha hlive
      | some U =>
        obtain ⟨h1, -⟩ := hinv U ha
        have hlt : List.indexOf T (First :: Types) < (First :: Types).length :=
          List.indexOf_lt_length.mpr hT
        have h3 : (First :: Types)[variant.index a w]? = some T := by
          rw [← h, List.getElem?_eq_getElem hlt]
          exact congrArg some (List.getElem_indexOf hlt)
        unfold variant.index at h3
        rw [h1] at h3
        exact h3
    · intro h
      obtain ⟨-, h2⟩ := hinv T h
      rw [detail.variant_index_eq, if_pos hT] at h2
      exact Option.some.inj h2

theorem fixture.hi_reachable :
    Reachable fixture.moved fixture.dflt fixture.Ty.int [fixture.Ty.string] fixture.hi :=
  ⟨fixture.raw, [Op.ctor_default 0,
      Op.assign 0 fixture.Ty.string true (Ref.obj (fixture.Val.str "hi"))],
    fun _ => rfl, rfl⟩

/-- Witness for C2: the variant of `variant<int, std::string> v; v = std::string("hi");`, asked
for its `int`. -/
theorem get_iff_holds_alternative_witness :
    (Reachable fixture.moved fixture.dflt fixture.Ty.int [fixture.Ty.string] fixture.hi
      ∧ fixture.Ty.int ∈ fixture.Ty.int :: [fixture.Ty.string]
      ∧ (fixture.hi.mem 0).storage_m.alive ≠ none)
    ∧ ∃ holds : Bool,
        holds_alternative fixture.Ty.int [fixture.Ty.string] fixture.Ty.int 0 fixture.hi
          = some holds
      ∧ get fixture.Ty.int [fixture.Ty.string] fixture.Ty.int 0 fixture.hi =
          some (if holds then Except.ok (Ref.slot 0) else Except.error bad_variant_access,
            fixture.hi)
      ∧ (holds = true ↔ detail.variant_index fixture.Ty.int fixture.Ty.int [fixture.Ty.string]
          = some (variant.index 0 fixture.hi))
      ∧ (holds = true ↔ (fixture.hi.mem 0).storage_m.alive = some fixture.Ty.int) :=
  ⟨⟨fixture.hi_reachable, by decide, by decide⟩,
    get_iff_holds_alternative fixture.moved fixture.dflt fixture.Ty.int [fixture.Ty.string]
      fixture.hi 0 fixture.Ty.int fixture.hi_reachable (by decide) (by decide)⟩

/-- C3: when the index of the variant addresses the alternative `T`, the table built by `visit`
has one thunk per alternative, the entry selected by the index is the thunk bound to `T`, and the
call `visit(vis, v)` is exactly one call of that thunk, which is exactly one call of the visitor
with the stored object viewed as a `T`: a visitor that only computes from the value returns
`f T x` for the stored value `x`, and a visitor that records its calls records one call, for
`T`, and none for another alternative. -/
theorem visit_dispatch {ρ : Type} (First : τ) (Types : List τ) (vis : Visitor τ ν ρ)
    (f : τ → ν → ρ × ν) (a : Addr) (w : World τ ν) (T : τ)
    (h : (First :: Types)[variant.index a w]? = some T) :
    ((First :: Types).map (@detail.variant_call_visitor τ ν ρ)).length = (First :: Types).length
    ∧ (∃ thunk, ((First :: Types).map (@detail.variant_call_visitor τ ν ρ))[variant.index a w]?
          = some thunk
        ∧ visit First Types vis a w = thunk vis a w
        ∧ thunk vis a w = vis T (Ref.slot a) w)
    ∧ (visit First Types (value_visitor f) a w).map Prod.fst
        = some (f T (w.mem a).storage_m.x).1
    ∧ visit First Types probe_visitor a w = some ((), w.emit [Event.call T]) := by
  refine ⟨by simp, ⟨detail.variant_call_visitor T, ?_, ?_, rfl⟩, ?_, ?_⟩
  · rw [List.getElem?_map, h]
    rfl
  · rw [visit_eq First Types vis a w T h]
    rfl
  · rw [visit_eq First Types _ a w T h]
    rfl
  · rw [visit_eq First Types _ a w T h]
    rfl

/-- Witness for C3: `variant<int, std::string, double> v; v = 42;` visited. -/
theorem visit_dispatch_witness :
    ((fixture.Ty.int :: [fixture.Ty.string, fixture.Ty.double])[variant.index 0 fixture.answer]?
        = some fixture.Ty.int)
    ∧ (((fixture.Ty.int :: [fixture.Ty.string, fixture.Ty.double]).map
          (@detail.variant_call_visitor fixture.Ty fixture.Val Unit)).length
        = (fixture.Ty.int :: [fixture.Ty.string, fixture.Ty.double]).length
      ∧ (∃ thunk, ((fixture.Ty.int :: [fixture.Ty.string, fixture.Ty.double]).map
              (@detail.variant_call_visitor fixture.Ty fixture.Val Unit))[
                variant.index 0 fixture.answer]? = some thunk
          ∧ visit fixture.Ty.int [fixture.Ty.string, fixture.Ty.double] probe_visitor 0
              fixture.answer = thunk probe_visitor 0 fixture.answer
          ∧ thunk probe_visitor 0 fixture.answer
              = probe_visitor fixture.Ty.int (Ref.slot 0) fixture.answer)
      ∧ (visit fixture.Ty.int [fixture.Ty.string, fixture.Ty.double]
            (value_visitor (fun _ x => ((), x))) 0 fixture.answer).map Prod.fst
          = some ((fun (_ : fixture.Ty) (x : fixture.Val) => ((), x)) fixture.Ty.int
              (fixture.answer.mem 0).storage_m.x).1
      ∧ visit fixture.Ty.int [fixture.Ty.string, fixture.Ty.double] probe_visitor 0
          fixture.answer = some ((), fixture.answer.emit [Event.call fixture.Ty.int])) :=
  ⟨by decide,
    visit_dispatch fixture.Ty.int [fixture.Ty.string, fixture.Ty.double] probe_visitor
      (fun _ x => ((), x)) 0 fixture.answer fixture.Ty.int (by decide)⟩

/-- C5: `{ variant<First, Types...> v; }`, default construction followed by destruction, makes
two constructor calls and three destructor calls of `First`, so that a counter that the
constructors of `First` increment and its destructor decrements stands one below its value
before: the constructor runs the destructor thunk of `First` on the storage before any object
has been constructed there. -/
theorem counter_after_construct_destroy (mv : τ → ν → ν) (dflt : τ → ν) (First : τ)
    (Types : List τ) (a : Addr) (w : World τ ν) :
    ∃ w1 w2, variant.ctor_default mv dflt First Types a w = some w1
      ∧ variant.dtor First Types a w1 = some w2
      ∧ w2.log = w.log ++ [Event.construct First, Event.destruct First false,
          Event.construct First, Event.destruct First true, Event.destruct First true]
      ∧ counter First w2.log = counter First w.log - 1 := by
  have h0 : (First :: Types)[variant.index a
      ((variant.member_init a w).emit [Event.construct First])]? = some First := by
    simp [variant.index, variant.member_init]
  obtain ⟨w1, hw1, hmem, -, hlog⟩ :=
    variant.assign_obj_spec mv First Types First true (dflt First) a _ First
      (List.mem_cons_self _ _) h0
  have h1 : (First :: Types)[variant.index a (w1.emit [Event.destruct First true])]?
      = some First := by
    simp [variant.index, hmem]
  have hlog2 : (variant.destroy_thunk First a (w1.emit [Event.destruct First true])).log
      = w.log ++ [Event.construct First, Event.destruct First false,
          Event.construct First, Event.destruct First true, Event.destruct First true] := by
    simp [variant.destroy_thunk, hlog, hmem, variant.member_init]
  refine ⟨w1.emit [Event.destruct First true], _, ?_, ?_, hlog2, ?_⟩
  · simp [variant.ctor_default, hw1]
  · exact variant.destroy_eq First Types a _ First h1
  · rw [hlog2, counter_append]
    simp [counter]
    omega

/-- C6: `variant<std::string, int> v(std::string("hi"));` on memory where nothing has been
constructed: the constructor runs the destructor thunk of `std::string` on the uninitialised
storage, and the behaviour is undefined from there, so the operation does not complete with a
live value.  And `v = v` on the `variant<int, std::string>` that holds "hi", a world in which
the behaviour is defined: the assignment makes it undefined. -/
theorem variant_invariant_broken_by_ctor_and_self_assign :
    (∃ w1, variant.ctor_value fixture.moved fixture.Ty.string [fixture.Ty.int] fixture.Ty.string
          true (Ref.obj (fixture.Val.str "hi")) 0 fixture.raw = some w1
      ∧ w1.log = [Event.destruct fixture.Ty.string false, Event.construct fixture.Ty.string]
      ∧ fixture.raw.undefined = false ∧ w1.undefined = true)
    ∧ (∃ w1, variant.copy_assign fixture.moved fixture.Ty.int [fixture.Ty.string] 0 0 fixture.hi
          = some w1
      ∧ fixture.hi.undefined = false ∧ w1.undefined = true) :=
  ⟨⟨_, rfl, rfl, rfl, rfl⟩, ⟨_, rfl, rfl, rfl⟩⟩

/-- C7: `variant<std::string, int> v(std::string("hi")); variant<std::string, int> u(v);` with
`v` at address 0 and `u` at address 1: the copy constructor of `u` runs the destructor thunk of
`std::string` on the uninitialised storage of `u` before it copies (as the constructor of `v`
did on the storage of `v`), and the behaviour is undefined.  It is undefined also when the
copy constructor starts from a world in which `v` is alive and the behaviour is defined.
Copy assignment between the two live objects of type `variant<int, std::string>` of
`hi_and_zero` keeps the behaviour defined: the destination gets the index and an equal live
object, and the source is unchanged. -/
theorem variant_copy_ctor_destroys_raw :
    (∃ w1 w2, variant.ctor_value fixture.moved fixture.Ty.string [fixture.Ty.int]
          fixture.Ty.string true (Ref.obj (fixture.Val.str "hi")) 0 fixture.raw = some w1
      ∧ variant.ctor_copy fixture.moved fixture.Ty.string [fixture.Ty.int] 1 0 w1 = some w2
      ∧ w2.log = w1.log ++ [Event.destruct fixture.Ty.string false,
          Event.read fixture.Ty.string true, Event.construct fixture.Ty.string]
      ∧ w2.undefined = true)
    ∧ (∃ w1, variant.ctor_copy fixture.moved fixture.Ty.string [fixture.Ty.int] 1 0 fixture.text
          = some w1
      ∧ w1.log = [Event.destruct fixture.Ty.string false, Event.read fixture.Ty.string true,
          Event.construct fixture.Ty.string]
      ∧ fixture.text.undefined = false ∧ w1.undefined = true)
    ∧ (∃ w1, variant.copy_assign fixture.moved fixture.Ty.int [fixture.Ty.string] 1 0
          fixture.hi_and_zero = some w1
      ∧ fixture.hi_and_zero.undefined = false ∧ w1.undefined = false
      ∧ variant.index 1 w1 = variant.index 0 fixture.hi_and_zero
      ∧ (w1.mem 1).storage_m = (fixture.hi_and_zero.mem 0).storage_m
      ∧ w1.mem 0 = fixture.hi_and_zero.mem 0) :=
  ⟨⟨_, _, rfl, rfl, rfl, rfl⟩, ⟨_, rfl, rfl, rfl, rfl⟩, ⟨_, rfl, rfl, rfl, rfl, rfl, rfl⟩⟩

/-- C11: for every alternative list `First, Types...` and every type `T`, `variant_index` has a
value exactly when `T` occurs in the list; the value is then less than the number of
alternatives, the alternative at that position is `T`, no earlier alternative is `T`, and two
different types never get the same index. -/
theorem variant_index_first_match (T First : τ) (Types : List τ) :
    ((∃ i, detail.variant_index T First Types = some i) ↔ T ∈ First :: Types)
    ∧ (∀ i, detail.variant_index T First Types = some i →
        i < (First :: Types).length
        ∧ (First :: Types)[i]? = some T
        ∧ ∀ j, j < i → (First :: Types)[j]? ≠ some T)
    ∧ (∀ U i j, detail.variant_index T First Types = some i →
        detail.variant_index U First Types = some j → T ≠ U → i ≠ j) := by
  refine ⟨?_, ?_, ?_⟩
  · rw [detail.variant_index_eq]
    by_cases h : T ∈ First :: Types
    · simp [h]
    · simp [h]
  · intro i hi
    rw [detail.variant_index_eq] at hi
    by_cases h : T ∈ First :: Types
    · rw [if_pos h] at hi
      cases hi
      have hlt : List.indexOf T (First :: Types) < (First :: Types).length :=
        List.indexOf_lt_length.mpr h
      refine ⟨hlt, ?_, fun j hj => getElem?_ne_of_lt_indexOf T _ j hj⟩
      rw [List.getElem?_eq_getElem hlt]
      exact congrArg some (List.getElem_indexOf hlt)
    · rw [if_neg h] at hi
      exact Option.noConfusion hi
  · intro U i j hi hj hne hij
    rw [detail.variant_index_eq] at hi hj
    by_cases hT : T ∈ First :: Types
    · by_cases hU : U ∈ First :: Types
      · rw [if_pos hT] at hi
        rw [if_pos hU] at hj
        cases hi
        cases hj
        exact hne ((List.indexOf_inj hT hU).mp hij)
      · rw [if_neg hU] at hj
        exact Option.noConfusion hj
    · rw [if_neg hT] at hi
      exact Option.noConfusion hi

/-- Witness for C11: `double` in `variant<int, std::string, double, double>` has index 2, and
`Counter` has none. -/
theorem variant_index_first_match_witness :
    detail.variant_index fixture.Ty.double fixture.Ty.int
        [fixture.Ty.string, fixture.Ty.double, fixture.Ty.double] = some 2
    ∧ (2 < (fixture.Ty.int :: [fixture.Ty.string, fixture.Ty.double, fixture.Ty.double]).length
      ∧ (fixture.Ty.int :: [fixture.Ty.string, fixture.Ty.double, fixture.Ty.double])[2]?
          = some fixture.Ty.double
      ∧ ∀ j, j < 2 →
          (fixture.Ty.int :: [fixture.Ty.string, fixture.Ty.double, fixture.Ty.double])[j]?
            ≠ some fixture.Ty.double)
    ∧ ¬ (∃ i, detail.variant_index fixture.Ty.counter fixture.Ty.int
        [fixture.Ty.string, fixture.Ty.double, fixture.Ty.double] = some i) :=
  ⟨by decide,
    (variant_index_first_match fixture.Ty.double fixture.Ty.int
      [fixture.Ty.string, fixture.Ty.double, fixture.Ty.double]).2.1 2 (by decide),
    fun h => absurd ((variant_index_first_match fixture.Ty.counter fixture.Ty.int
      [fixture.Ty.string, fixture.Ty.double, fixture.Ty.double]).1.mp h) (by decide)⟩

/-- C12: the default constructor runs, in this order, the constructor of the temporary
`First()`, the destructor thunk of `First` on the uninitialised storage, the move constructor of
`First`, and the destructor of the temporary; the behaviour is undefined afterwards unless
`First` is trivially destructible.  For `variant<std::string, int> v;` it is undefined; for
`variant<int, std::string> v;` it is defined, the index is 0 and `v` holds a live `int` with the
value of `int()`. -/
theorem variant_default_ctor_destroys_raw (mv : τ → ν → ν) (dflt : τ → ν) (First : τ)
    (Types : List τ) (a : Addr) (w : World τ ν) :
    (∃ w1, variant.ctor_default mv dflt First Types a w = some w1
      ∧ w1.log = w.log ++ [Event.construct First, Event.destruct First false,
          Event.construct First, Event.destruct First true]
      ∧ w1.undefined = (w.undefined || !w.trivially_destructible First))
    ∧ (∃ w1, variant.ctor_default fixture.moved fixture.dflt fixture.Ty.string [fixture.Ty.int]
          0 fixture.raw = some w1
      ∧ fixture.raw.undefined = false ∧ w1.undefined = true)
    ∧ (∃ w1, variant.ctor_default fixture.moved fixture.dflt fixture.Ty.int [fixture.Ty.string]
          0 fixture.raw = some w1
      ∧ w1.undefined = false
      ∧ variant.index 0 w1 = 0
      ∧ holds_alternative fixture.Ty.int [fixture.Ty.string] fixture.Ty.int 0 w1 = some true
      ∧ (w1.mem 0).storage_m
          = { x := fixture.dflt fixture.Ty.int, alive := some fixture.Ty.int }) := by
  have h0 : (First :: Types)[variant.index a
      ((variant.member_init a w).emit [Event.construct First])]? = some First := by
    simp [variant.index, variant.member_init]
  obtain ⟨w1, hw1, -, -, hlog⟩ :=
    variant.assign_obj_spec mv First Types First true (dflt First) a _ First
      (List.mem_cons_self _ _) h0
  have hu := variant.assign_obj_undefined mv First Types First true (dflt First) a _ w1 First
    h0 hw1
  refine ⟨⟨w1.emit [Event.destruct First true], by simp [variant.ctor_default, hw1], ?_, ?_⟩,
    ⟨_, rfl, rfl, rfl⟩, ⟨_, rfl, rfl, rfl, rfl, rfl⟩⟩
  · simp [hlog, variant.member_init]
  · simp [hu, variant.member_init]

/-- C20: in every world reachable through the public operations, the index `i` of a live
variant is the index computed for the type of the alternative at `i`, the type of the live
object: no earlier alternative has that type, so `i` is never the position of a later duplicate
of a type; `destroy` and `visit` select the thunk at `i`; and a constructor, which starts with
index 0, runs the destructor thunk at position 0. -/
theorem variant_index_canonical (mv : τ → ν → ν) (dflt : τ → ν) (First : τ) (Types : List τ)
    (w : World τ ν) (a : Addr) (hw : Reachable mv dflt First Types w)
    (hl : (w.mem a).storage_m.alive ≠ none) :
    ∃ T, (First :: Types)[variant.index a w]? = some T
      ∧ (w.mem a).storage_m.alive = some T
      ∧ detail.variant_index T First Types = some (variant.index a w)
      ∧ (∀ j, j < variant.index a w → (First :: Types)[j]? ≠ some T)
      ∧ (∀ j k, k < j → j < (First :: Types).length →
          (First :: Types)[k]? = (First :: Types)[j]? → variant.index a w ≠ j)
      ∧ variant.destroy First Types a w = some (variant.destroy_thunk T a w)
      ∧ (∀ (ρ : Type) (vis : Visitor τ ν ρ),
          visit First Types vis a w = detail.variant_call_visitor T vis a w)
      ∧ variant.index a (variant.member_init a w) = 0 := by
  have hinv := Reachable.inv mv dflt First Types w hw a
  cases hal : (w.mem a).storage_m.alive with
  | none => exact absurd hal hl
  | some T =>
    obtain ⟨h1, h2⟩ := hinv T hal
    have h1i : (First :: Types)[variant.index a w]? = some T := h1
    have h2i : detail.variant_index T First Types = some (variant.index a w) := h2
    have hfirst : ∀ j, j < variant.index a w → (First :: Types)[j]? ≠ some T :=
      detail.variant_index_no_earlier T First Types (variant.index a w) h2i
    refine ⟨T, h1i, rfl, h2i, hfirst, ?_, variant.destroy_eq First Types a w T h1i, ?_, ?_⟩
    · intro j k hkj _ hdup hij
      rw [← hij] at hdup hkj
      rw [h1i] at hdup
      exact hfirst k hkj hdup
    · intro ρ vis
      rw [visit_eq First Types vis a w T h1i]
      rfl
    · simp [variant.index, variant.member_init]

theorem fixture.dup_reachable :
    Reachable fixture.moved fixture.dflt fixture.Ty.int [fixture.Ty.string, fixture.Ty.int]
      fixture.dup :=
  ⟨fixture.raw, [Op.ctor_default 0,
      Op.assign 0 fixture.Ty.int true (Ref.obj (fixture.Val.int 5))],
    fun _ => rfl, rfl⟩

/-- Witness for C20: `variant<int, std::string, int> v; v = 5;`: the index is 0, not 2. -/
theorem variant_index_canonical_witness :
    (Reachable fixture.moved fixture.dflt fixture.Ty.int [fixture.Ty.string, fixture.Ty.int]
        fixture.dup
      ∧ (fixture.dup.mem 0).storage_m.alive ≠ none)
    ∧ ∃ T, (fixture.Ty.int :: [fixture.Ty.string, fixture.Ty.int])[variant.index 0 fixture.dup]?
          = some T
      ∧ (fixture.dup.mem 0).storage_m.alive = some T
      ∧ detail.variant_index T fixture.Ty.int [fixture.Ty.string, fixture.Ty.int]
          = some (variant.index 0 fixture.dup)
      ∧ (∀ j, j < variant.index 0 fixture.dup →
          (fixture.Ty.int :: [fixture.Ty.string, fixture.Ty.int])[j]? ≠ some T)
      ∧ (∀ j k, k < j → j < (fixture.Ty.int :: [fixture.Ty.string, fixture.Ty.int]).length →
          (fixture.Ty.int :: [fixture.Ty.string, fixture.Ty.int])[k]?
            = (fixture.Ty.int :: [fixture.Ty.string, fixture.Ty.int])[j]? →
          variant.index 0 fixture.dup ≠ j)
      ∧ variant.destroy fixture.Ty.int [fixture.Ty.string, fixture.Ty.int] 0 fixture.dup
          = some (variant.destroy_thunk T 0 fixture.dup)
      ∧ (∀ (ρ : Type) (vis : Visitor fixture.Ty fixture.Val ρ),
          visit fixture.Ty.int [fixture.Ty.string, fixture.Ty.int] vis 0 fixture.dup
            = detail.variant_call_visitor T vis 0 fixture.dup)
      ∧ variant.index 0 (variant.member_init 0 fixture.dup) = 0 :=
  ⟨⟨fixture.dup_reachable, by decide⟩,
    variant_index_canonical fixture.moved fixture.dflt fixture.Ty.int
      [fixture.Ty.string, fixture.Ty.int] fixture.dup 0 fixture.dup_reachable (by decide)⟩

/-- C15: `variant<std::string, int> v(std::string("hi")); variant<std::string, int>
u(std::move(v));` with `v` at address 0 and `u` at address 1: the move constructor of `u` runs
the destructor thunk of `std::string` on the uninitialised storage of `u` before it moves (as
the constructor of `v` did on the storage of `v`), and the behaviour is undefined.  It is
undefined also when the move constructor starts from a world in which `v` is alive and the
behaviour is defined.  Move assignment between the two live objects of type
`variant<int, std::string>` of `hi_and_zero` keeps the behaviour defined: one destructor call
on the old value of the destination, which gets the index and the value of the source; the
source keeps its index and a live moved-from `std::string`. -/
theorem variant_move_ctor_destroys_raw :
    (∃ w1 w2, variant.ctor_value fixture.moved fixture.Ty.string [fixture.Ty.int]
          fixture.Ty.string true (Ref.obj (fixture.Val.str "hi")) 0 fixture.raw = some w1
      ∧ variant.ctor_move fixture.moved fixture.Ty.string [fixture.Ty.int] 1 0 w1 = some w2
      ∧ w2.log = w1.log ++ [Event.destruct fixture.Ty.string false,
          Event.read fixture.Ty.string true, Event.construct fixture.Ty.string]
      ∧ w2.undefined = true)
    ∧ (∃ w1, variant.ctor_move fixture.moved fixture.Ty.string [fixture.Ty.int] 1 0 fixture.text
          = some w1
      ∧ w1.log = [Event.destruct fixture.Ty.string false, Event.read fixture.Ty.string true,
          Event.construct fixture.Ty.string]
      ∧ fixture.text.undefined = false ∧ w1.undefined = true)
    ∧ (∃ w1, variant.move_assign fixture.moved fixture.Ty.int [fixture.Ty.string] 1 0
          fixture.hi_and_zero = some w1
      ∧ fixture.hi_and_zero.undefined = false ∧ w1.undefined = false
      ∧ variant.index 1 w1 = variant.index 0 fixture.hi_and_zero
      ∧ (w1.mem 1).storage_m = (fixture.hi_and_zero.mem 0).storage_m
      ∧ variant.index 0 w1 = variant.index 0 fixture.hi_and_zero
      ∧ (w1.mem 0).storage_m
          = { x := fixture.moved fixture.Ty.string (fixture.hi_and_zero.mem 0).storage_m.x,
              alive := some fixture.Ty.string }
      ∧ w1.log = fixture.hi_and_zero.log ++ [Event.destruct fixture.Ty.int true,
          Event.read fixture.Ty.string true, Event.construct fixture.Ty.string]) :=
  ⟨⟨_, _, rfl, rfl, rfl, rfl⟩, ⟨_, rfl, rfl, rfl, rfl⟩,
    ⟨_, rfl, rfl, rfl, rfl, rfl, rfl, rfl, rfl⟩⟩

/-- C19: `variant<int, std::string> v; v = std::string("hi");` followed by `v = v`, or by
`v = get<std::string>(v)`: in both, the destructor thunk ends the lifetime of the stored
`std::string` and the copy constructor then reads it from the storage, where no object is alive;
the index stays 1. -/
theorem variant_self_assign_reads_destroyed :
    (∃ w1, variant.copy_assign fixture.moved fixture.Ty.int [fixture.Ty.string] 0 0 fixture.hi
        = some w1
      ∧ w1.log = fixture.hi.log ++ [Event.destruct fixture.Ty.string true,
          Event.read fixture.Ty.string false, Event.construct fixture.Ty.string]
      ∧ variant.index 0 w1 = 1)
    ∧ (get fixture.Ty.int [fixture.Ty.string] fixture.Ty.string 0 fixture.hi).map Prod.fst
        = some (Except.ok (Ref.slot 0))
    ∧ (∃ w1, variant.assign fixture.moved fixture.Ty.int [fixture.Ty.string] fixture.Ty.string
          false (Ref.slot 0) 0 fixture.hi = some w1
      ∧ w1.log = fixture.hi.log ++ [Event.destruct fixture.Ty.string true,
          Event.read fixture.Ty.string false, Event.construct fixture.Ty.string]
      ∧ variant.index 0 w1 = 1) :=
  ⟨⟨_, rfl, rfl, rfl⟩, rfl, ⟨_, rfl, rfl, rfl⟩⟩

end variant_claims

/-! ## Lemmas about holders -/

section any_lemmas

variable {τ ν : Type}

@[simp] theorem AnyWorld.mem_set_same (w : AnyWorld τ ν) (a : Addr) (v : any τ ν) :
    (w.set a v).mem a = v := by
  simp [AnyWorld.set]

@[simp] theorem AnyWorld.mem_set_other (w : AnyWorld τ ν) (a b : Addr) (v : any τ ν)
    (h : b ≠ a) : (w.set a v).mem b = w.mem b := by
  simp [AnyWorld.set, h]

@[simp] theorem AnyWorld.mem_emit (w : AnyWorld τ ν) (es : List (BoxEvent τ ν)) :
    (w.emit es).mem = w.mem := rfl

/-- The box of the holder at `a` after `data_m` has been assigned the pointer `p`. -/
@[simp] theorem any.reset_mem_same (p : Option (any.holder_base τ ν)) (a : Addr)
    (w : AnyWorld τ ν) : ((any.reset p a w).mem a).data_m = p := by
  unfold any.reset
  split <;> simp

@[simp] theorem any.reset_mem_other (p : Option (any.holder_base τ ν)) (a b : Addr)
    (w : AnyWorld τ ν) (h : b ≠ a) : (any.reset p a w).mem b = w.mem b := by
  unfold any.reset
  split <;> simp [h]

@[simp] theorem any.ctor_value_mem (T : τ) (v : ν) (a : Addr) (w : AnyWorld τ ν) :
    ((any.ctor_value T v a w).mem a).data_m = some (any.holder_base.holder T v) := by
  simp [any.ctor_value, AnyWorld.alloc]

@[simp] theorem any.assign_mem (T : τ) (v : ν) (a : Addr) (w : AnyWorld τ ν) :
    ((any.assign T v a w).mem a).data_m = some (any.holder_base.holder T v) := by
  simp [any.assign, AnyWorld.alloc]

@[simp] theorem any.ctor_default_mem (a : Addr) (w : AnyWorld τ ν) :
    ((any.ctor_default a w).mem a).data_m = some any.holder_base.base := by
  simp [any.ctor_default, AnyWorld.alloc]

/-- The trace after `data_m` of a holder that owns no box has been assigned a pointer. -/
theorem any.reset_log_of_null (p : Option (any.holder_base τ ν)) (a : Addr) (w : AnyWorld τ ν)
    (h : (w.mem a).data_m = none) : (any.reset p a w).log = w.log := by
  unfold any.reset
  rw [h]
  rfl

/-- The trace after `data_m` of a holder that owns a box has been assigned a pointer. -/
theorem any.reset_log_of_box (p : Option (any.holder_base τ ν)) (a : Addr) (w : AnyWorld τ ν)
    (old : any.holder_base τ ν) (h : (w.mem a).data_m = some old) :
    (any.reset p a w).log = w.log ++ [BoxEvent.free old] := by
  unfold any.reset
  rw [h]
  rfl

end any_lemmas

/-! ## The claims about `any` -/

section any_claims

variable {τ ν : Type} [DecidableEq τ]

/-- Extraction from a holder whose box is a `holder<T>` with value `v`. -/
theorem any_cast_of_holder (T : τ) (v : ν) (a : Addr) (w : AnyWorld τ ν)
    (h : (w.mem a).data_m = some (any.holder_base.holder T v)) :
    any_cast T a w = Except.ok v
      ∧ any_cast_ptr T (some a) w = some v
      ∧ ∀ U, U ≠ T → any_cast_ptr U (some a) w = none
          ∧ any_cast U a w = Except.error bad_any_cast := by
  refine ⟨by simp [any_cast, any_cast_ptr, h], by simp [any_cast_ptr, h], fun U hU => ?_⟩
  have hU2 : ¬ T = U := fun e => hU e.symm
  exact ⟨by simp [any_cast_ptr, h, hU2], by simp [any_cast, any_cast_ptr, h, hU2]⟩

/-- C4: for every type `T` and value `v`, a holder constructed from `v`, and a holder assigned
`v`, gives `v` back through `any_cast<T>` in the value form and in the pointer form (a non-null
pointer to a value equal to `v`); for every other type `U` the pointer form returns a null
pointer and the value form throws the bad-any-cast error. -/
theorem any_cast_round_trip (T : τ) (v : ν) (a : Addr) (w : AnyWorld τ ν) :
    (any_cast T a (any.ctor_value T v a w) = Except.ok v
      ∧ any_cast_ptr T (some a) (any.ctor_value T v a w) = some v
      ∧ ∀ U, U ≠ T → any_cast_ptr U (some a) (any.ctor_value T v a w) = none
          ∧ any_cast U a (any.ctor_value T v a w) = Except.error bad_any_cast)
    ∧ (any_cast T a (any.assign T v a w) = Except.ok v
      ∧ any_cast_ptr T (some a) (any.assign T v a w) = some v
      ∧ ∀ U, U ≠ T → any_cast_ptr U (some a) (any.assign T v a w) = none
          ∧ any_cast U a (any.assign T v a w) = Except.error bad_any_cast) :=
  ⟨any_cast_of_holder T v a _ (any.ctor_value_mem T v a w),
    any_cast_of_holder T v a _ (any.assign_mem T v a w)⟩

/-- Witness for C4: `any a(7);` asked for its `int` and for a `std::string`. -/
theorem any_cast_round_trip_witness :
    fixture.Ty.string ≠ fixture.Ty.int
    ∧ any_cast fixture.Ty.int 0 (any.ctor_value fixture.Ty.int (fixture.Val.int 7) 0
        fixture.any_raw) = Except.ok (fixture.Val.int 7)
    ∧ any_cast_ptr fixture.Ty.int (some 0) (any.ctor_value fixture.Ty.int (fixture.Val.int 7) 0
        fixture.any_raw) = some (fixture.Val.int 7)
    ∧ any_cast_ptr fixture.Ty.string (some 0) (any.ctor_value fixture.Ty.int (fixture.Val.int 7)
        0 fixture.any_raw) = none
    ∧ any_cast fixture.Ty.string 0 (any.ctor_value fixture.Ty.int (fixture.Val.int 7) 0
        fixture.any_raw) = Except.error bad_any_cast :=
  ⟨by decide,
    (any_cast_round_trip fixture.Ty.int (fixture.Val.int 7) 0 fixture.any_raw).1.1,
    (any_cast_round_trip fixture.Ty.int (fixture.Val.int 7) 0 fixture.any_raw).1.2.1,
    ((any_cast_round_trip fixture.Ty.int (fixture.Val.int 7) 0 fixture.any_raw).1.2.2
      fixture.Ty.string (by decide)).1,
    ((any_cast_round_trip fixture.Ty.int (fixture.Val.int 7) 0 fixture.any_raw).1.2.2
      fixture.Ty.string (by decide)).2⟩

/-- C8: `has_value()` is true for a default-constructed holder, from which no value of any type
can be extracted, as it is for a holder constructed from a value or assigned one. -/
theorem any_default_has_value (a : Addr) (w : AnyWorld τ ν) :
    any.has_value a (any.ctor_default a w) = true
    ∧ (∀ T : τ, any_cast_ptr T (some a) (any.ctor_default a w) = none)
    ∧ ∀ (T : τ) (v : ν), any.has_value a (any.ctor_value T v a w) = true
        ∧ any.has_value a (any.assign T v a w) = true := by
  refine ⟨by simp [any.has_value], fun T => by simp [any_cast_ptr], fun T v => ?_⟩
  exact ⟨by simp [any.has_value], by simp [any.has_value]⟩

/-- C13: when the holder at `b` holds a value `v` of type `T` and `a` is another holder, after
move assignment of `b` to `a`, and after move construction of `a` from `b`: `type()` of `a` is
the identity of `T` and `any_cast<T>` on `a` gives `v`; `b` owns no box, and destroying both
holders deletes exactly one box, the moved one; assigning a value `x` of a type `U` to `b`
afterwards gives a holder from which `any_cast<U>` returns `x`, deletes nothing, and leaves `a`
as it was. -/
theorem any_move_transfers_box (nullptr_t : τ) (T : τ) (v : ν) (a b : Addr) (w : AnyWorld τ ν)
    (hab : a ≠ b) (hb : (w.mem b).data_m = some (any.holder_base.holder T v)) :
    (any.type nullptr_t a (any.move_assign a b w) = some T
      ∧ any_cast T a (any.move_assign a b w) = Except.ok v
      ∧ ((any.move_assign a b w).mem b).data_m = none
      ∧ (any.dtor b (any.dtor a (any.move_assign a b w))).log
          = (any.move_assign a b w).log ++ [BoxEvent.free (any.holder_base.holder T v)]
      ∧ ∀ (U : τ) (x : ν),
          any_cast U b (any.assign U x b (any.move_assign a b w)) = Except.ok x
          ∧ (any.assign U x b (any.move_assign a b w)).mem a = (any.move_assign a b w).mem a
          ∧ (any.assign U x b (any.move_assign a b w)).log
              = (any.move_assign a b w).log ++ [BoxEvent.alloc (any.holder_base.holder U x)])
    ∧ (any.type nullptr_t a (any.ctor_move a b w) = some T
      ∧ any_cast T a (any.ctor_move a b w) = Except.ok v
      ∧ ((any.ctor_move a b w).mem b).data_m = none
      ∧ (any.dtor b (any.dtor a (any.ctor_move a b w))).log
          = (any.ctor_move a b w).log ++ [BoxEvent.free (any.holder_base.holder T v)]
      ∧ ∀ (U : τ) (x : ν),
          any_cast U b (any.assign U x b (any.ctor_move a b w)) = Except.ok x
          ∧ (any.assign U x b (any.ctor_move a b w)).mem a = (any.ctor_move a b w).mem a
          ∧ (any.assign U x b (any.ctor_move a b w)).log
              = (any.ctor_move a b w).log ++ [BoxEvent.alloc (any.holder_base.holder U x)]) := by
  have hba : b ≠ a := fun e => hab e.symm
  have key : ∀ w1 : AnyWorld τ ν, (w1.mem a).data_m = some (any.holder_base.holder T v) →
      (w1.mem b).data_m = none →
      any.type nullptr_t a w1 = some T
      ∧ any_cast T a w1 = Except.ok v
      ∧ (w1.mem b).data_m = none
      ∧ (any.dtor b (any.dtor a w1)).log = w1.log ++ [BoxEvent.free (any.holder_base.holder T v)]
      ∧ ∀ (U : τ) (x : ν),
          any_cast U b (any.assign U x b w1) = Except.ok x
          ∧ (any.assign U x b w1).mem a = w1.mem a
          ∧ (any.assign U x b w1).log = w1.log ++ [BoxEvent.alloc (any.holder_base.holder U x)] := by
    intro w1 h1 h2
    refine ⟨by simp [any.type, h1, any.holder_base.type], (any_cast_of_holder T v a w1 h1).1, h2,
      ?_, fun U x => ⟨?_, ?_, ?_⟩⟩
    · have h3 : ((any.dtor a w1).mem b).data_m = none := by
        simp [any.dtor, hba, h2]
      rw [any.dtor, any.reset_log_of_null none b _ h3, any.dtor,
        any.reset_log_of_box none a w1 _ h1]
    · exact (any_cast_of_holder U x b _ (any.assign_mem U x b w1)).1
    · simp [any.assign, AnyWorld.alloc, hab]
    · have h4 : ((w1.emit [BoxEvent.alloc (any.holder_base.holder U x)]).mem b).data_m = none := h2
      simp only [any.assign, AnyWorld.alloc]
      rw [any.reset_log_of_null _ b _ h4]
      rfl
  constructor
  · exact key _ (by simp [any.move_assign, hba, hb]) (by simp [any.move_assign, hba])
  · exact key _ (by simp [any.ctor_move, any.move_assign, hba, hb])
      (by simp [any.ctor_move, any.move_assign, hba])

/-- Witness for C13: `any a(7); any b; b = std::move(a);`. -/
theorem any_move_transfers_box_witness :
    ((1 : Addr) ≠ 0
      ∧ (fixture.seven_and_empty.mem 0).data_m
          = some (any.holder_base.holder fixture.Ty.int (fixture.Val.int 7)))
    ∧ any.type fixture.Ty.nullptr_t 1 (any.move_assign 1 0 fixture.seven_and_empty)
        = some fixture.Ty.int
    ∧ any_cast fixture.Ty.int 1 (any.move_assign 1 0 fixture.seven_and_empty)
        = Except.ok (fixture.Val.int 7)
    ∧ ((any.move_assign 1 0 fixture.seven_and_empty).mem 0).data_m = none
    ∧ (any.dtor 0 (any.dtor 1 (any.move_assign 1 0 fixture.seven_and_empty))).log
        = (any.move_assign 1 0 fixture.seven_and_empty).log
          ++ [BoxEvent.free (any.holder_base.holder fixture.Ty.int (fixture.Val.int 7))] :=
  have h := any_move_transfers_box fixture.Ty.nullptr_t fixture.Ty.int (fixture.Val.int 7) 1 0
    fixture.seven_and_empty (by decide) rfl
  ⟨⟨by decide, rfl⟩, h.1.1, h.1.2.1, h.1.2.2.1, h.1.2.2.2.1⟩

/-- C18: with `any a(v);` at address 0 holding a value `v` of type `T`, the declaration
`any b(a);` and the assignment `b = a;` with `a` a non-const lvalue select the forwarding
template: `b` owns a `holder<any>` whose value is a copy of `a`, `type()` of `b` is the identity
of `cpp11::any`, and `any_cast<T>` finds no `T` in `b` unless `T` is `cpp11::any`; with `a`
const the copy members are selected, `type()` of `b` is the identity of `T` and `any_cast<T>`
gives `v`. -/
theorem any_from_mutable_any_wraps (nullptr_t any_t : τ) (enc : any τ ν → ν) (T : τ) (v : ν)
    (w : AnyWorld τ ν) :
    (∃ w1, any.ctor_from_any any_t enc false false 1 0 (any.ctor_value T v 0 w) = some w1
      ∧ (w1.mem 1).data_m = some (any.holder_base.holder any_t
          (enc { data_m := some (any.holder_base.holder T v) }))
      ∧ any.type nullptr_t 1 w1 = some any_t
      ∧ any_cast_ptr T (some 1) w1
          = if any_t = T then some (enc { data_m := some (any.holder_base.holder T v) })
            else none)
    ∧ (∃ w1, any.assign_from_any any_t enc false false 1 0
          (any.ctor_default 1 (any.ctor_value T v 0 w)) = some w1
      ∧ (w1.mem 1).data_m = some (any.holder_base.holder any_t
          (enc { data_m := some (any.holder_base.holder T v) }))
      ∧ any.type nullptr_t 1 w1 = some any_t
      ∧ any_cast_ptr T (some 1) w1
          = if any_t = T then some (enc { data_m := some (any.holder_base.holder T v) })
            else none)
    ∧ (∃ w1, any.ctor_from_any any_t enc true false 1 0 (any.ctor_value T v 0 w) = some w1
      ∧ any.type nullptr_t 1 w1 = some T
      ∧ any_cast T 1 w1 = Except.ok v)
    ∧ (∃ w1, any.assign_from_any any_t enc true false 1 0
          (any.ctor_default 1 (any.ctor_value T v 0 w)) = some w1
      ∧ any.type nullptr_t 1 w1 = some T
      ∧ any_cast T 1 w1 = Except.ok v) := by
  have h0 : ((any.ctor_value T v 0 w).mem 0).data_m = some (any.holder_base.holder T v) :=
    any.ctor_value_mem T v 0 w
  have h01 : ((any.ctor_default 1 (any.ctor_value T v 0 w)).mem 0).data_m
      = some (any.holder_base.holder T v) := by
    simp [any.ctor_default, AnyWorld.alloc]
  have hc : any.copy_of ((any.ctor_value T v 0 w).mem 0)
      = some { data_m := some (any.holder_base.holder T v) } := by
    simp [any.copy_of, h0, any.holder_base.clone]
  have hc1 : any.copy_of ((any.ctor_default 1 (any.ctor_value T v 0 w)).mem 0)
      = some { data_m := some (any.holder_base.holder T v) } := by
    simp [any.copy_of, h01, any.holder_base.clone]
  refine ⟨⟨any.ctor_value any_t (enc { data_m := some (any.holder_base.holder T v) }) 1
      ((any.ctor_value T v 0 w).emit (any.copy_events ((any.ctor_value T v 0 w).mem 0))),
      by simp only [any.ctor_from_any, any.select, hc], ?_, ?_, ?_⟩,
    ⟨any.assign any_t (enc { data_m := some (any.holder_base.holder T v) }) 1
      ((any.ctor_default 1 (any.ctor_value T v 0 w)).emit
        (any.copy_events ((any.ctor_default 1 (any.ctor_value T v 0 w)).mem 0))),
      by simp only [any.assign_from_any, any.select, hc1], ?_, ?_, ?_⟩,
    ⟨any.reset (some (any.holder_base.holder T v)) 1
      (((any.ctor_value T v 0 w).set 1 { data_m := none }).emit
        [BoxEvent.alloc (any.holder_base.holder T v)]), ?_, ?_, ?_⟩,
    ⟨any.reset (some (any.holder_base.holder T v)) 1
      ((any.ctor_default 1 (any.ctor_value T v 0 w)).emit
        [BoxEvent.alloc (any.holder_base.holder T v)]), ?_, ?_, ?_⟩⟩
  · simp
  · simp [any.type, any.holder_base.type]
  · simp [any_cast_ptr]
  · simp
  · simp [any.type, any.holder_base.type]
  · simp [any_cast_ptr]
  · simp [any.ctor_from_any, any.select, any.ctor_copy, any.copy_assign, h0,
      any.holder_base.clone, AnyWorld.alloc]
  · simp [any.type, any.holder_base.type]
  · exact (any_cast_of_holder T v 1 _ (by simp)).1
  · simp [any.assign_from_any, any.select, any.copy_assign, h01, any.holder_base.clone,
      AnyWorld.alloc]
  · simp [any.type, any.holder_base.type]
  · exact (any_cast_of_holder T v 1 _ (by simp)).1

end any_claims

section any_box_claims

variable {τ ν : Type}

/-- C9 (as stated, refuted): `any a(7); any b; b = std::move(a);`: both holders own a box
before the move assignment; after it the source `a` owns none, and `type()` has no defined result
on it. -/
theorem any_box_null_after_move :
    (∀ c ∈ AnyOp.operands (AnyOp.move_assign 1 0 : AnyOp fixture.Ty fixture.Val),
        (fixture.seven_and_empty.mem c).data_m ≠ none)
    ∧ ∃ w1, AnyOp.run (AnyOp.move_assign 1 0) fixture.seven_and_empty = some w1
      ∧ ¬ (∀ c ∈ AnyOp.involved (AnyOp.move_assign 1 0 : AnyOp fixture.Ty fixture.Val),
            (w1.mem c).data_m ≠ none)
      ∧ any.type fixture.Ty.nullptr_t 0 w1 = none := by
  refine ⟨?_, any.move_assign 1 0 fixture.seven_and_empty, rfl, ?_, rfl⟩
  · intro c hc
    simp only [AnyOp.operands, List.mem_cons, List.mem_singleton, List.not_mem_nil,
      or_false] at hc
    rcases hc with rfl | rfl
    · exact fun h => Option.noConfusion h
    · exact fun h => Option.noConfusion h
  · intro h
    exact h 0 (by simp [AnyOp.involved]) rfl

/-- C9 (amended): every constructing or assigning operation whose source, if it has one, owns a
box, holds a value when it is copied, and is another holder when the operation is a constructor,
has a defined result in which the destination owns a box, so that `type()` is defined on it; the
box of the destination is equal to the one the source owned; the source of a copy keeps its box;
the source of a move from another holder owns no box. -/
theorem any_box_after_op (nullptr_t : τ) (op : AnyOp τ ν) (w : AnyWorld τ ν)
    (hctor : AnyOp.is_ctor op = true → AnyOp.src op ≠ some (AnyOp.dst op))
    (hsrc : ∀ b, AnyOp.src op = some b → (w.mem b).data_m ≠ none)
    (hcopy : ∀ b, AnyOp.src op = some b → AnyOp.is_move op = false →
      ∃ T v, (w.mem b).data_m = some (any.holder_base.holder T v)) :
    ∃ w1, AnyOp.run op w = some w1
      ∧ (w1.mem (AnyOp.dst op)).data_m ≠ none
      ∧ any.type nullptr_t (AnyOp.dst op) w1 ≠ none
      ∧ ∀ b, AnyOp.src op = some b →
          (w1.mem (AnyOp.dst op)).data_m = (w.mem b).data_m
          ∧ (AnyOp.is_move op = false → (w1.mem b).data_m = (w.mem b).data_m)
          ∧ (AnyOp.is_move op = true → b ≠ AnyOp.dst op → (w1.mem b).data_m = none) := by
  have key : ∀ w1 : AnyWorld τ ν, (w1.mem (AnyOp.dst op)).data_m ≠ none →
      any.type nullptr_t (AnyOp.dst op) w1 ≠ none := by
    intro w1 h
    unfold any.type
    split
    · rename_i h0
      exact absurd h0 h
    · exact fun e => Option.noConfusion e
  cases op with
  | ctor_default a =>
    have h1 : ((any.ctor_default a w).mem a).data_m ≠ none := by simp
    exact ⟨_, rfl, h1, key _ h1, fun b hb => Option.noConfusion hb⟩
  | ctor_value a T v =>
    have h1 : ((any.ctor_value T v a w).mem a).data_m ≠ none := by simp
    exact ⟨_, rfl, h1, key _ h1, fun b hb => Option.noConfusion hb⟩
  | assign a T v =>
    have h1 : ((any.assign T v a w).mem a).data_m ≠ none := by simp
    exact ⟨_, rfl, h1, key _ h1, fun b hb => Option.noConfusion hb⟩
  | ctor_copy a b =>
    have hba : b ≠ a := fun e => hctor rfl (by rw [e]; rfl)
    obtain ⟨T, v, hv⟩ := hcopy b rfl rfl
    have hrun : AnyOp.run (AnyOp.ctor_copy a b) w
        = some (any.reset (some (any.holder_base.holder T v)) a
            ((w.set a { data_m := none }).emit
              [BoxEvent.alloc (any.holder_base.holder T v)])) := by
      simp [AnyOp.run, any.ctor_copy, any.copy_assign, hba, hv, any.holder_base.clone,
        AnyWorld.alloc]
    have h1 : ((any.reset (some (any.holder_base.holder T v)) a
        ((w.set a { data_m := none }).emit
          [BoxEvent.alloc (any.holder_base.holder T v)])).mem a).data_m ≠ none := by simp
    refine ⟨_, hrun, h1, key _ h1, fun c hc => ?_⟩
    cases hc
    refine ⟨by simp [AnyOp.dst, hv], fun _ => by simp [hba], fun h => ?_⟩
    exact absurd h (by simp [AnyOp.is_move])
  | copy_assign a b =>
    obtain ⟨T, v, hv⟩ := hcopy b rfl rfl
    have hrun : AnyOp.run (AnyOp.copy_assign a b) w
        = some (any.reset (some (any.holder_base.holder T v)) a
            (w.emit [BoxEvent.alloc (any.holder_base.holder T v)])) := by
      simp [AnyOp.run, any.copy_assign, hv, any.holder_base.clone, AnyWorld.alloc]
    have h1 : ((any.reset (some (any.holder_base.holder T v)) a
        (w.emit [BoxEvent.alloc (any.holder_base.holder T v)])).mem a).data_m ≠ none := by simp
    refine ⟨_, hrun, h1, key _ h1, fun c hc => ?_⟩
    cases hc
    refine ⟨by simp [AnyOp.dst, hv], fun _ => ?_, fun h => ?_⟩
    · by_cases hba : b = a
      · subst hba
        simp [hv]
      · simp [hba]
    · exact absurd h (by simp [AnyOp.is_move])
  | ctor_move a b =>
    have hba : b ≠ a := fun e => hctor rfl (by rw [e]; rfl)
    have hab : a ≠ b := fun e => hba e.symm
    have hb := hsrc b rfl
    have h1 : ((any.ctor_move a b w).mem a).data_m = (w.mem b).data_m := by
      simp [any.ctor_move, any.move_assign, hba]
    refine ⟨_, rfl, by simpa [AnyOp.dst, h1] using hb,
      key _ (by simpa [AnyOp.dst, h1] using hb), fun c hc => ?_⟩
    cases hc
    refine ⟨h1, fun h => ?_, fun _ _ => ?_⟩
    · exact absurd h (by simp [AnyOp.is_move])
    · simp [any.ctor_move, any.move_assign, hba]
  | move_assign a b =>
    have hb := hsrc b rfl
    have h1 : ((any.move_assign a b w).mem a).data_m = (w.mem b).data_m := by
      simp [any.move_assign]
    refine ⟨_, rfl, by simpa [AnyOp.dst, h1] using hb,
      key _ (by simpa [AnyOp.dst, h1] using hb), fun c hc => ?_⟩
    cases hc
    refine ⟨h1, fun h => ?_, fun _ hne => ?_⟩
    · exact absurd h (by simp [AnyOp.is_move])
    · have hne2 : b ≠ a := hne
      simp [any.move_assign, hne2]

/-- Witness for C9 (amended): `any a(7); any b; any c(a);` with `c` at address 2. -/
theorem any_box_after_op_witness :
    ((AnyOp.is_ctor (AnyOp.ctor_copy 2 0 : AnyOp fixture.Ty fixture.Val) = true →
        AnyOp.src (AnyOp.ctor_copy 2 0 : AnyOp fixture.Ty fixture.Val)
          ≠ some (AnyOp.dst (AnyOp.ctor_copy 2 0 : AnyOp fixture.Ty fixture.Val)))
      ∧ (∀ b, AnyOp.src (AnyOp.ctor_copy 2 0 : AnyOp fixture.Ty fixture.Val) = some b →
          (fixture.seven_and_empty.mem b).data_m ≠ none)
      ∧ (∀ b, AnyOp.src (AnyOp.ctor_copy 2 0 : AnyOp fixture.Ty fixture.Val) = some b →
          AnyOp.is_move (AnyOp.ctor_copy 2 0 : AnyOp fixture.Ty fixture.Val) = false →
          ∃ T v, (fixture.seven_and_empty.mem b).data_m = some (any.holder_base.holder T v)))
    ∧ ∃ w1, AnyOp.run (AnyOp.ctor_copy 2 0) fixture.seven_and_empty = some w1
      ∧ (w1.mem 2).data_m ≠ none
      ∧ any.type fixture.Ty.nullptr_t 2 w1 ≠ none
      ∧ ∀ b, AnyOp.src (AnyOp.ctor_copy 2 0 : AnyOp fixture.Ty fixture.Val) = some b →
          (w1.mem 2).data_m = (fixture.seven_and_empty.mem b).data_m
          ∧ (AnyOp.is_move (AnyOp.ctor_copy 2 0 : AnyOp fixture.Ty fixture.Val) = false →
              (w1.mem b).data_m = (fixture.seven_and_empty.mem b).data_m)
          ∧ (AnyOp.is_move (AnyOp.ctor_copy 2 0 : AnyOp fixture.Ty fixture.Val) = true →
              b ≠ 2 → (w1.mem b).data_m = none) :=
  have h1 : AnyOp.is_ctor (AnyOp.ctor_copy 2 0 : AnyOp fixture.Ty fixture.Val) = true →
      AnyOp.src (AnyOp.ctor_copy 2 0 : AnyOp fixture.Ty fixture.Val)
        ≠ some (AnyOp.dst (AnyOp.ctor_copy 2 0 : AnyOp fixture.Ty fixture.Val)) :=
    fun _ h => absurd (Option.some.inj h) (by decide)
  have h2 : ∀ b, AnyOp.src (AnyOp.ctor_copy 2 0 : AnyOp fixture.Ty fixture.Val) = some b →
      (fixture.seven_and_empty.mem b).data_m ≠ none := by
    intro b hb
    cases hb
    exact fun h => Option.noConfusion h
  have h3 : ∀ b, AnyOp.src (AnyOp.ctor_copy 2 0 : AnyOp fixture.Ty fixture.Val) = some b →
      AnyOp.is_move (AnyOp.ctor_copy 2 0 : AnyOp fixture.Ty fixture.Val) = false →
      ∃ T v, (fixture.seven_and_empty.mem b).data_m = some (any.holder_base.holder T v) := by
    intro b hb _
    cases hb
    exact ⟨fixture.Ty.int, fixture.Val.int 7, rfl⟩
  ⟨⟨h1, h2, h3⟩,
    any_box_after_op fixture.Ty.nullptr_t (AnyOp.ctor_copy 2 0) fixture.seven_and_empty
      h1 h2 h3⟩

/-- C10: after `any other;` and `dst = other` through the copy assignment operator, `dst` owns
no box: `has_value()` is false on `dst` while it was true on `other`, and `type()` has no defined
result on `dst` while it returned the type information of `std::nullptr_t` on `other`. -/
theorem any_copy_assign_from_empty (nullptr_t : τ) (a b : Addr) (w : AnyWorld τ ν) :
    ∃ w1, any.copy_assign a b (any.ctor_default b w) = some w1
      ∧ any.has_value b (any.ctor_default b w) = true
      ∧ any.type nullptr_t b (any.ctor_default b w) = some nullptr_t
      ∧ (w1.mem a).data_m = none
      ∧ any.has_value a w1 = false
      ∧ any.type nullptr_t a w1 = none := by
  refine ⟨any.reset none a (any.ctor_default b w), ?_, ?_, ?_, ?_, ?_, ?_⟩
  · simp [any.copy_assign, any.holder_base.clone]
  · simp [any.has_value]
  · simp [any.type, any.holder_base.type]
  · simp
  · simp [any.has_value]
  · simp [any.type]

/-- C14 (as stated, refuted): `any a; any b(nullptr);`: `type()` returns the same token for the
empty holder `a` and for `b`, although `b` stores a value, of type `std::nullptr_t`, and `a`
stores none. -/
theorem any_empty_token_not_unique :
    any.type fixture.Ty.nullptr_t 0 fixture.empty_and_null
        = any.type fixture.Ty.nullptr_t 1 fixture.empty_and_null
    ∧ any_cast_ptr fixture.Ty.nullptr_t (some 1) fixture.empty_and_null = some fixture.Val.unit
    ∧ any_cast_ptr fixture.Ty.nullptr_t (some 0) fixture.empty_and_null = none := by
  decide

/-- C14 (amended): `type()` of a holder constructed from, or assigned, a value of type `T` is
the identity of `T`; two holders that store values have equal tokens exactly when the types of
the stored values are equal; `type()` of a default-constructed holder is the identity of
`std::nullptr_t`, which differs from the token of every holder that stores a value of another
type. -/
theorem any_type_token (nullptr_t : τ) (T U : τ) (v u : ν) (a b : Addr) (w : AnyWorld τ ν)
    (hab : a ≠ b) :
    any.type nullptr_t a (any.ctor_value T v a w) = some T
    ∧ any.type nullptr_t a (any.assign T v a w) = some T
    ∧ (any.type nullptr_t a (any.ctor_value U u b (any.ctor_value T v a w))
        = any.type nullptr_t b (any.ctor_value U u b (any.ctor_value T v a w)) ↔ T = U)
    ∧ any.type nullptr_t a (any.ctor_default a w) = some nullptr_t
    ∧ (U ≠ nullptr_t →
        any.type nullptr_t a (any.ctor_value U u b (any.ctor_default a w))
          ≠ any.type nullptr_t b (any.ctor_value U u b (any.ctor_default a w))) := by
  have h1 : ((any.ctor_value U u b (any.ctor_value T v a w)).mem a).data_m
      = some (any.holder_base.holder T v) := by
    simp [any.ctor_value, AnyWorld.alloc, hab]
  have h2 : ((any.ctor_value U u b (any.ctor_default a w)).mem a).data_m
      = some any.holder_base.base := by
    simp [any.ctor_value, any.ctor_default, AnyWorld.alloc, hab]
  refine ⟨by simp [any.type, any.holder_base.type], by simp [any.type, any.holder_base.type],
    ?_, by simp [any.type, any.holder_base.type], fun hU => ?_⟩
  · simp [any.type, any.holder_base.type, h1]
  · simp only [any.type, h2, any.ctor_value_mem, any.holder_base.type]
    exact fun e => hU (Option.some.inj e).symm

/-- Witness for C14 (amended): `any a; any b(7);`, with `a` at address 0 and `b` at address 1,
have different tokens. -/
theorem any_type_token_witness :
    ((0 : Addr) ≠ 1 ∧ fixture.Ty.int ≠ fixture.Ty.nullptr_t)
    ∧ any.type fixture.Ty.nullptr_t 0 (any.ctor_value fixture.Ty.int (fixture.Val.int 7) 1
          (any.ctor_default 0 fixture.any_raw))
        ≠ any.type fixture.Ty.nullptr_t 1 (any.ctor_value fixture.Ty.int (fixture.Val.int 7) 1
          (any.ctor_default 0 fixture.any_raw)) :=
  ⟨⟨by decide, by decide⟩,
    (any_type_token fixture.Ty.nullptr_t fixture.Ty.string fixture.Ty.int (fixture.Val.str "")
      (fixture.Val.int 7) 0 1 fixture.any_raw (by decide)).2.2.2.2 (by decide)⟩

end any_box_claims

/-! ## The claims about the storage and the exceptions -/

section storage_claims

variable {τ : Type}

/-- C16: for every alternative list `First, Types...` with sizes given by `sizeof`, the type
selected by `variant_max_size_type` is one of the alternatives, its size is the largest of their
sizes, and the byte array of the storage has at least the size of every alternative. -/
theorem variant_max_size_type_is_max (sizeof : τ → Nat) (First : τ) (Types : List τ) :
    detail.variant_max_size_type sizeof First Types ∈ First :: Types
    ∧ sizeof (detail.variant_max_size_type sizeof First Types)
        = ((First :: Types).map sizeof).foldr max 0
    ∧ ∀ U, U ∈ First :: Types →
        sizeof U ≤ detail.variant_storage.extent sizeof First Types := by
  obtain ⟨h1, -, h3⟩ := detail.variant_max_size_type_impl_spec sizeof First First Types
  have hmem : detail.variant_max_size_type sizeof First Types ∈ First :: Types := by
    rcases h1 with h1 | h1
    · rw [detail.variant_max_size_type, h1]
      exact List.mem_cons_self _ _
    · exact h1
  refine ⟨hmem, ?_, fun U hU => h3 U hU⟩
  obtain ⟨g1, g2⟩ := foldr_max_spec ((First :: Types).map sizeof)
  apply le_antisymm
  · exact g1 _ (List.mem_map_of_mem sizeof hmem)
  · rcases g2 with g2 | g2
    · rw [g2]
      exact Nat.zero_le _
    · obtain ⟨U, hU, hUe⟩ := List.mem_map.mp g2
      rw [← hUe]
      exact h3 U hU

/-- Witness for C16: in `variant<int, std::string, double>` the selected type is `std::string`
and the storage has 32 bytes. -/
theorem variant_max_size_type_is_max_witness :
    fixture.Ty.double ∈ fixture.Ty.int :: [fixture.Ty.string, fixture.Ty.double]
    ∧ detail.variant_max_size_type fixture.sizeof fixture.Ty.int
        [fixture.Ty.string, fixture.Ty.double] = fixture.Ty.string
    ∧ detail.variant_storage.extent fixture.sizeof fixture.Ty.int
        [fixture.Ty.string, fixture.Ty.double] = 32
    ∧ fixture.sizeof fixture.Ty.double
        ≤ detail.variant_storage.extent fixture.sizeof fixture.Ty.int
          [fixture.Ty.string, fixture.Ty.double] :=
  ⟨by decide, by decide, by decide,
    (variant_max_size_type_is_max fixture.sizeof fixture.Ty.int
      [fixture.Ty.string, fixture.Ty.double]).2.2 fixture.Ty.double (by decide)⟩

end storage_claims

section exception_claims

variable {τ ν : Type} [DecidableEq τ]

/-- The only exception `any_cast` throws. -/
theorem any_cast_error (T : τ) (a : Addr) (w : AnyWorld τ ν) (e : runtime_error)
    (h : any_cast T a w = Except.error e) : e = bad_any_cast := by
  unfold any_cast at h
  split at h
  · exact Except.noConfusion h
  · cases h
    rfl

/-- The only exception `get` throws. -/
theorem get_error (First : τ) (Types : List τ) (T : τ) (a : Addr) (w : World τ ν)
    (e : runtime_error)
    (h : (get First Types T a w).map Prod.fst = some (Except.error e)) :
    e = bad_variant_access := by
  unfold get at h
  split at h
  · exact Option.noConfusion h
  · split at h
    · simp only [Option.map_some', Option.some.injEq] at h
      cases h
      rfl
    · simp only [Option.map_some', Option.some.injEq] at h
      exact Except.noConfusion h

/-- C17 (as stated, refuted): the error of `any_cast<std::string>` on a holder of an `int` and
the error of `get<int>` on a variant that holds a `std::string` are both caught by the handler
`catch (const std::runtime_error&)`. -/
theorem handler_catches_both :
    any_cast fixture.Ty.string 0 fixture.seven = Except.error bad_any_cast
    ∧ (get fixture.Ty.int [fixture.Ty.string] fixture.Ty.int 0 fixture.hi).map Prod.fst
        = some (Except.error bad_variant_access)
    ∧ handler.catches handler.std_runtime_error bad_any_cast = true
    ∧ handler.catches handler.std_runtime_error bad_variant_access = true := by
  refine ⟨rfl, ?_, rfl, rfl⟩
  rfl

/-- C17 (amended): an error thrown by `any_cast` carries the message "Bad ant cast" and an error
thrown by `get` the message "Bad variant access", so the two error objects differ; both are
objects of class `std::runtime_error`, and every handler that catches one catches the other. -/
theorem errors_differ_by_message_only (First : τ) (Types : List τ) (T U : τ) (a b : Addr)
    (aw : AnyWorld τ ν) (w : World τ ν) (e1 e2 : runtime_error)
    (h1 : any_cast T a aw = Except.error e1)
    (h2 : (get First Types U b w).map Prod.fst = some (Except.error e2)) :
    e1.what = "Bad ant cast"
    ∧ e2.what = "Bad variant access"
    ∧ e1 ≠ e2
    ∧ ∀ h : handler, handler.catches h e1 = handler.catches h e2 := by
  rw [any_cast_error T a aw e1 h1, get_error First Types U b w e2 h2]
  refine ⟨rfl, rfl, by decide, fun h => ?_⟩
  cases h <;> rfl

/-- Witness for C17 (amended): the two errors of the refutation. -/
theorem errors_differ_by_message_only_witness :
    (any_cast fixture.Ty.string 0 fixture.seven = Except.error bad_any_cast
      ∧ (get fixture.Ty.int [fixture.Ty.string] fixture.Ty.int 0 fixture.hi).map Prod.fst
          = some (Except.error bad_variant_access))
    ∧ bad_any_cast.what = "Bad ant cast"
    ∧ bad_variant_access.what = "Bad variant access"
    ∧ bad_any_cast ≠ bad_variant_access
    ∧ ∀ h : handler, handler.catches h bad_any_cast = handler.catches h bad_variant_access :=
  ⟨⟨rfl, rfl⟩,
    errors_differ_by_message_only fixture.Ty.int [fixture.Ty.string] fixture.Ty.string
      fixture.Ty.int 0 0 fixture.seven fixture.hi bad_any_cast bad_variant_access rfl
      rfl⟩

end exception_claims

end cpp11
